import Mathlib

/-!
CODI.c : a genetic algorithm over 30-bit genomes.

Shallow embedding of `src/CODI.c` and proofs of its contract.

* Genes and errors (C `int`) are Lean `Int`; every operation on them in
  `calcula_error` and `mutacio` is followed by `wrap32`, the two's-complement
  reduction to 32 bits. Sizes, counts, indices and draws (`n`, `k`, `i`, the
  values of `rand()`) are `Nat`: a loop bound that is not positive in C runs
  no iteration, like the bound 0.
* A genome (`int gens[NUM_GENS]`) is a `List Int`; the statements carry the
  length `NUM_GENS` as a hypothesis, and a genome read `v[i]` is `v.getD i 0`.
* The population (`Cromosoma poblacio[]`, `n` passed next to it) is a
  `List Cromosoma`; a read `poblacio[i]` is the checked `poblacio[i]?`, and a
  function that would read outside the list returns `none`.
* `rand()` is a stream of naturals threaded through every function.
* Storage the source leaves uninitialised (`nova_pob` after `malloc`, the
  local arrays `fill1` and `fill2`) starts with the contents given by an
  `Indeterminat`; a write into `nova_pob` is checked like a read.
* The state of `main` carries the lines printed so far (`informes`) and, for
  the statements only, the populations examined so far (`avaluades`).
-/

namespace CODI

/-! ## Definitions -/

/-- `#define NUM_GENS 30` -/
def NUM_GENS : Nat := 30

/-- `#define TARGET 1977` -/
def TARGET : Int := 1977

/-- Reduction of an integer to the 32-bit two's-complement range
`-2^31 .. 2^31 - 1`: the value a C `int` holds after an operation. -/
def wrap32 (x : Int) : Int := (x + 2147483648) % 4294967296 - 2147483648

/-- Whether an integer is representable as a 32-bit C `int`. -/
def in_int (x : Int) : Bool := decide (-2147483648 ≤ x) && decide (x ≤ 2147483647)

/-- `typedef struct { int gens[NUM_GENS]; int error; } Cromosoma;` -/
structure Cromosoma where
  gens : List Int
  error : Int
deriving DecidableEq, Repr

/-- The loop of `calcula_error`:
`for (int i = 0; i < NUM_GENS; i++) suma += v[i] * (i+1) * (i+1);`
The first argument counts the iterations still to run, the second is `i`. -/
def calcula_error_loop (v : List Int) : Nat → Nat → Int → Int
  | 0, _, suma => suma
  | m + 1, i, suma =>
    calcula_error_loop v m (i + 1)
      (wrap32 (suma + wrap32 (wrap32 (v.getD i 0 * ((i : Int) + 1)) * ((i : Int) + 1))))

/-- `int calcula_error(const int v[NUM_GENS])`: `suma = 0`, the loop, then
`return abs(suma - TARGET);`. -/
def calcula_error (v : List Int) : Int :=
  wrap32 |wrap32 (calcula_error_loop v NUM_GENS 0 0 - TARGET)|

/-- The loop of `calcula_error` with every operation checked: `none` as soon
as an intermediate value leaves the range of a 32-bit `int`. -/
def calcula_error_loop_checked (v : List Int) : Nat → Nat → Int → Option Int
  | 0, _, suma => some suma
  | m + 1, i, suma =>
    let p1 := v.getD i 0 * ((i : Int) + 1)
    let p2 := p1 * ((i : Int) + 1)
    let s := suma + p2
    if in_int p1 && in_int p2 && in_int s then
      calcula_error_loop_checked v m (i + 1) s
    else none

/-- The function `calcula_error` with every operation checked for overflow. -/
def calcula_error_checked (v : List Int) : Option Int :=
  match calcula_error_loop_checked v NUM_GENS 0 0 with
  | none => none
  | some suma =>
    let d := suma - TARGET
    if in_int d && in_int |d| then some |d| else none

/-- The pseudo-random source of the C library: `g 0`, `g 1`, ... are the
values the successive calls of `rand()` return. -/
abbrev RandSrc := Nat → Nat

/-- One call of `rand()`: the value returned and the source afterwards. -/
def rand (g : RandSrc) : Nat × RandSrc := (g 0, fun i => g (i + 1))

/-- The loop of `tournament_selection`:
`for (int i = 1; i < k; i++) { int idx = rand() % n;
   if (poblacio[idx].error < poblacio[millor].error) millor = idx; }`
The first numeric argument counts the iterations still to run. A read outside
the population gives `none`. -/
def tournament_loop (poblacio : List Cromosoma) (n : Nat) :
    Nat → Nat → RandSrc → Option (Nat × RandSrc)
  | 0, millor, g => some (millor, g)
  | m + 1, millor, g =>
    let idx := (rand g).1 % n
    match poblacio[idx]?, poblacio[millor]? with
    | some c, some b =>
      tournament_loop poblacio n m (if c.error < b.error then idx else millor) (rand g).2
    | _, _ => none

/-- `int tournament_selection(Cromosoma poblacio[], int n, int k)`:
`millor = rand() % n`, then the loop for `i = 1 .. k-1`. With `n = 0` the
remainder `rand() % n` is undefined: `none`. -/
def tournament_selection (poblacio : List Cromosoma) (n k : Nat) (g : RandSrc) :
    Option (Nat × RandSrc) :=
  if n = 0 then none
  else tournament_loop poblacio n (k - 1) ((rand g).1 % n) (rand g).2

/-- A copying loop of `crossover`:
`for (...; i < ...; i++) { fill1[i] = src1[i]; fill2[i] = src2[i]; }`
The first numeric argument counts the iterations still to run, the second is
`i`. The first loop of the source runs it with `(pare1, pare2)` as sources,
the second with `(pare2, pare1)`. -/
def crossover_loop (src1 src2 : List Int) :
    Nat → Nat → List Int × List Int → List Int × List Int
  | 0, _, fills => fills
  | m + 1, i, fills =>
    crossover_loop src1 src2 m (i + 1)
      (fills.1.set i (src1.getD i 0), fills.2.set i (src2.getD i 0))

/-- `void crossover(pare1, pare2, fill1, fill2)`: `punt = rand() % (NUM_GENS - 1) + 1`,
then genes `0 .. punt-1` are copied straight and genes `punt .. NUM_GENS-1`
crosswise. `fill1` and `fill2` are the output arrays with the contents they
have before the call; the result is their contents after it. -/
def crossover (pare1 pare2 fill1 fill2 : List Int) (g : RandSrc) :
    (List Int × List Int) × RandSrc :=
  let punt := (rand g).1 % (NUM_GENS - 1) + 1
  let fills := crossover_loop pare1 pare2 punt 0 (fill1, fill2)
  (crossover_loop pare2 pare1 (NUM_GENS - punt) punt fills, (rand g).2)

/-- The loop of `mutacio`:
`for (int i = 0; i < NUM_GENS; i++)
   if ((double)rand() / RAND_MAX < prob) gens[i] = 1 - gens[i];`
`RAND_MAX` is the constant of `<stdlib.h>`. The quotient and the comparison
are taken in the rationals; for `prob = 0` and `prob = 1` and draws in
`0 .. RAND_MAX` this agrees with the correctly rounded division of doubles
(the rounded quotient of a draw below `RAND_MAX` stays below 1, and no
quotient is negative). -/
def mutacio_loop (RAND_MAX : Nat) (prob : ℚ) :
    Nat → Nat → List Int → RandSrc → List Int × RandSrc
  | 0, _, gens, g => (gens, g)
  | m + 1, i, gens, g =>
    mutacio_loop RAND_MAX prob m (i + 1)
      (if ((rand g).1 : ℚ) / (RAND_MAX : ℚ) < prob then gens.set i (wrap32 (1 - gens.getD i 0))
       else gens)
      (rand g).2

/-- `void mutacio(int gens[NUM_GENS], double prob)`: the genome after the
call and the random source afterwards. -/
def mutacio (RAND_MAX : Nat) (gens : List Int) (prob : ℚ) (g : RandSrc) :
    List Int × RandSrc :=
  mutacio_loop RAND_MAX prob NUM_GENS 0 gens g

/-- The loop of `millor_cromosoma`:
`for (int i = 1; i < n; i++) if (poblacio[i].error < poblacio[millor].error) millor = i;`
The first argument counts the iterations still to run, the second is `i`. A
read outside the population gives `none`. -/
def millor_cromosoma_loop (poblacio : List Cromosoma) : Nat → Nat → Nat → Option Nat
  | 0, _, millor => some millor
  | m + 1, i, millor =>
    match poblacio[i]?, poblacio[millor]? with
    | some c, some b =>
      millor_cromosoma_loop poblacio m (i + 1) (if c.error < b.error then i else millor)
    | _, _ => none

/-- `int millor_cromosoma(Cromosoma poblacio[], int n)`: `millor = 0`, then
the loop for `i = 1 .. n-1`. -/
def millor_cromosoma (poblacio : List Cromosoma) (n : Nat) : Option Nat :=
  millor_cromosoma_loop poblacio (n - 1) 1 0

/-- The cached error of the individual at index `i` of a population (0 when
`i` is outside it). -/
def error_de (poblacio : List Cromosoma) (i : Nat) : Int :=
  (poblacio.getD i ⟨[], 0⟩).error

/-- The random source that returns the elements of a list and then zeros. -/
def rand_de (l : List Nat) : RandSrc := fun i => l.getD i 0

/-- A population of four individuals given by their cached errors. -/
def poblacio_exemple : List Cromosoma :=
  [⟨[], 7⟩, ⟨[], 3⟩, ⟨[], 9⟩, ⟨[], 3⟩]

/-- A genome all of whose genes are 0 or 1. -/
def binari (v : List Int) : Prop := ∀ x ∈ v, x = 0 ∨ x = 1

instance (v : List Int) : Decidable (binari v) := by
  unfold binari; infer_instance

/-- Genome with ones exactly at the 1-based positions 2, 6, 14, 29 and 30. -/
def genoma_exacte : List Int :=
  [0, 1, 0, 0, 0, 1, 0, 0, 0, 0, 0, 0, 0, 1, 0,
   0, 0, 0, 0, 0, 0, 0, 0, 0, 0, 0, 0, 0, 1, 1]

/-! ### The driver -/

/-- `#define MAX_GEN 100` -/
def MAX_GEN : Int := 100

/-- `#define POP_SIZE 40` -/
def POP_SIZE : Int := 40

/-- `#define PMUT 0.05` -/
def PMUT : ℚ := 1 / 20

/-- `#define K_TOURN 5` -/
def K_TOURN : Int := 5

/-- The four run parameters `generacions`, `n`, `pmut`, `k` of `main`. -/
structure Params where
  generacions : Int
  n : Int
  pmut : ℚ
  k : Int

/-- `void llegeix_parametres(argc, argv, &generacions, &n, &pmut, &k)`: each
parameter is converted from its argument when the argument is there and is the
default otherwise. `argc` is the length of `argv`; `atoi` and `atof` are the
functions of `<stdlib.h>`. No value is checked. -/
def llegeix_parametres (atoi : String → Int) (atof : String → ℚ) (argv : List String) :
    Params :=
  { generacions := if argv.length > 1 then atoi (argv.getD 1 "") else MAX_GEN
    n := if argv.length > 2 then atoi (argv.getD 2 "") else POP_SIZE
    pmut := if argv.length > 3 then atof (argv.getD 3 "") else PMUT
    k := if argv.length > 4 then atoi (argv.getD 4 "") else K_TOURN }

/-- What the storage that the source does not initialise holds: cell `i` of
the buffer `nova_pob` after `malloc`, and cell `i` of the local arrays `fill1`
and `fill2`. -/
structure Indeterminat where
  nova_pob : Nat → Cromosoma
  fill1 : Nat → Int
  fill2 : Nat → Int

/-- The inner loop of `inicialitza_poblacio`:
`for (int j = 0; j < NUM_GENS; j++) poblacio[i].gens[j] = rand() % 2;`
The cells are written once each, in the order of the indices: the result is
the list of the values written. The argument counts the iterations to run. -/
def inicialitza_gens : Nat → RandSrc → List Int × RandSrc
  | 0, g => ([], g)
  | m + 1, g =>
    (((rand g).1 % 2 : Nat) :: (inicialitza_gens m (rand g).2).1,
      (inicialitza_gens m (rand g).2).2)

/-- `void inicialitza_poblacio(Cromosoma poblacio[], int n)`: for `i = 0 .. n-1`
the genes of individual `i` are drawn and its error is computed. The result
is the list of the `n` individuals written, in the order of the indices. -/
def inicialitza_poblacio : Nat → RandSrc → List Cromosoma × RandSrc
  | 0, g => ([], g)
  | m + 1, g =>
    (⟨(inicialitza_gens NUM_GENS g).1, calcula_error (inicialitza_gens NUM_GENS g).1⟩
        :: (inicialitza_poblacio m (inicialitza_gens NUM_GENS g).2).1,
      (inicialitza_poblacio m (inicialitza_gens NUM_GENS g).2).2)

/-- A write `pob[i] = c` into a buffer: `none` when `i` is outside it. -/
def escriu (pob : List Cromosoma) (i : Nat) (c : Cromosoma) : Option (List Cromosoma) :=
  if i < pob.length then some (pob.set i c) else none

/-- The two calls `mutacio(fill1, pmut); mutacio(fill2, pmut);` of `main`, on
the two arrays and the random source that `crossover` leaves. -/
def muta_fills (RAND_MAX : Nat) (pmut : ℚ) (x : (List Int × List Int) × RandSrc) :
    (List Int × List Int) × RandSrc :=
  ((( mutacio RAND_MAX x.1.1 pmut x.2).1,
    ( mutacio RAND_MAX x.1.2 pmut ( mutacio RAND_MAX x.1.1 pmut x.2).2).1),
   ( mutacio RAND_MAX x.1.2 pmut ( mutacio RAND_MAX x.1.1 pmut x.2).2).2)

/-- The first half of the body of the generation-building loop of `main`:
two parents are selected, `crossover` fills the local arrays `fill1` and
`fill2`, and `mutacio` is applied to `fill1`, then to `fill2`. The result is
the two arrays and the random source afterwards. -/
def cria (RAND_MAX : Nat) (ind : Indeterminat) (poblacio : List Cromosoma) (n k : Nat)
    (pmut : ℚ) (g : RandSrc) : Option ((List Int × List Int) × RandSrc) :=
  match tournament_selection poblacio n k g with
  | none => none
  | some (idx1, g1) =>
    match tournament_selection poblacio n k g1 with
    | none => none
    | some (idx2, g2) =>
      match poblacio[idx1]?, poblacio[idx2]? with
      | some p1, some p2 =>
        some (muta_fills RAND_MAX pmut
          (crossover p1.gens p2.gens ((List.range NUM_GENS).map ind.fill1)
            ((List.range NUM_GENS).map ind.fill2) g2))
      | _, _ => none

/-- The generation-building loop of `main`:
`for (int i = 0; i < n; i += 2) { ...; nova_pob[i] = (fill1, calcula_error(fill1));
   if (i+1 < n) nova_pob[i+1] = (fill2, calcula_error(fill2)); }`
The first numeric argument counts the iterations still to run, the second is
`i`; `nova_pob` is the buffer with the contents it has before. -/
def nova_generacio_loop (RAND_MAX : Nat) (ind : Indeterminat) (poblacio : List Cromosoma)
    (n k : Nat) (pmut : ℚ) :
    Nat → Nat → List Cromosoma → RandSrc → Option (List Cromosoma × RandSrc)
  | 0, _, nova_pob, g => some (nova_pob, g)
  | m + 1, i, nova_pob, g =>
    match cria RAND_MAX ind poblacio n k pmut g with
    | none => none
    | some (fills, g1) =>
      match escriu nova_pob i ⟨fills.1, calcula_error fills.1⟩ with
      | none => none
      | some nova1 =>
        if i + 1 < n then
          match escriu nova1 (i + 1) ⟨fills.2, calcula_error fills.2⟩ with
          | none => none
          | some nova2 => nova_generacio_loop RAND_MAX ind poblacio n k pmut m (i + 2) nova2 g1
        else nova_generacio_loop RAND_MAX ind poblacio n k pmut m (i + 2) nova1 g1

/-- The generation-building loop run from `i = 0`: with the step 2 it makes
`(n + 1) / 2` iterations. -/
def nova_generacio (RAND_MAX : Nat) (ind : Indeterminat) (poblacio : List Cromosoma)
    (n k : Nat) (pmut : ℚ) (nova_pob : List Cromosoma) (g : RandSrc) :
    Option (List Cromosoma × RandSrc) :=
  nova_generacio_loop RAND_MAX ind poblacio n k pmut ((n + 1) / 2) 0 nova_pob g

/-- One line `Generacio %d: Millor combinacio: ... Error: %d` of the output. -/
structure Informe where
  generacio : Nat
  gens : List Int
  error : Int
deriving DecidableEq, Repr

/-- The variables of `main` during the evolution. `informes` holds the lines
printed so far. `avaluades` is not a variable of the source: it records the
populations the loop has examined so far, oldest first, and nothing is computed
from it. -/
structure Estat where
  poblacio : List Cromosoma
  nova_pob : List Cromosoma
  millor_solucio : Cromosoma
  generacio_millor : Nat
  informes : List Informe
  avaluades : List (List Cromosoma)
  rng : RandSrc

/-- The first part of the body of the loop of `main`, for the best individual
`c = poblacio[idx_millor]` of the current population: the line of the
generation is printed, and `millor_solucio` and `generacio_millor` are
replaced when `c.error < millor_solucio.error`. -/
def registra (gen : Nat) (s : Estat) (c : Cromosoma) : Estat :=
  { s with
    informes := s.informes ++ [⟨gen + 1, c.gens, c.error⟩]
    avaluades := s.avaluades ++ [s.poblacio]
    millor_solucio := if c.error < s.millor_solucio.error then c else s.millor_solucio
    generacio_millor := if c.error < s.millor_solucio.error then gen + 1 else s.generacio_millor }

/-- The body of `for (int gen = 0; gen < generacions; gen++)` in `main`:
the best individual is found and reported, the record is updated, the loop is
left when the record has error 0, and otherwise the next generation is built
and the two buffers are exchanged. The Boolean is `true` when the body is left
by `break`. -/
def main_iteracio (RAND_MAX : Nat) (ind : Indeterminat) (n k : Nat) (pmut : ℚ) (gen : Nat)
    (s : Estat) : Option (Bool × Estat) :=
  match millor_cromosoma s.poblacio n with
  | none => none
  | some idx_millor =>
    match s.poblacio[idx_millor]? with
    | none => none
    | some c =>
      if (registra gen s c).millor_solucio.error = 0 then some (true, registra gen s c)
      else
        match nova_generacio RAND_MAX ind s.poblacio n k pmut s.nova_pob s.rng with
        | none => none
        | some (nova, g1) =>
          some (false,
            { registra gen s c with poblacio := nova, nova_pob := s.poblacio, rng := g1 })

/-- The loop `for (int gen = 0; gen < generacions; gen++)` of `main`. The first
numeric argument counts the iterations still to run, the second is `gen`. -/
def main_loop (RAND_MAX : Nat) (ind : Indeterminat) (n k : Nat) (pmut : ℚ) :
    Nat → Nat → Estat → Option Estat
  | 0, _, s => some s
  | m + 1, gen, s =>
    match main_iteracio RAND_MAX ind n k pmut gen s with
    | none => none
    | some (true, s1) => some s1
    | some (false, s1) => main_loop RAND_MAX ind n k pmut m (gen + 1) s1

/-- The state of `main` when the loop is entered: the initial population, the
best of it as `millor_solucio`, `generacio_millor = 1`. `none` when
`poblacio[millor_cromosoma(poblacio, n)]` is outside the population. -/
def estat_inicial (ind : Indeterminat) (n : Nat) (g : RandSrc) : Option Estat :=
  match millor_cromosoma (inicialitza_poblacio n g).1 n with
  | none => none
  | some idx =>
    match (inicialitza_poblacio n g).1[idx]? with
    | none => none
    | some c =>
      some { poblacio := (inicialitza_poblacio n g).1
             nova_pob := (List.range n).map ind.nova_pob
             millor_solucio := c
             generacio_millor := 1
             informes := []
             avaluades := []
             rng := (inicialitza_poblacio n g).2 }

/-- The part of `main` after `llegeix_parametres`: the state when the final
lines are printed (`millor_solucio`, its error and `generacio_millor`). -/
def executa (RAND_MAX : Nat) (ind : Indeterminat) (p : Params) (g : RandSrc) : Option Estat :=
  match estat_inicial ind p.n.toNat g with
  | none => none
  | some s0 => main_loop RAND_MAX ind p.n.toNat p.k.toNat p.pmut p.generacions.toNat 0 s0

/-- `int main(int argc, char *argv[])`: the value returned, always 0, and the
final state. `g` is the random source as seeded by `srand(time(NULL))`. -/
def main (atoi : String → Int) (atof : String → ℚ) (RAND_MAX : Nat) (ind : Indeterminat)
    (argv : List String) (g : RandSrc) : Option (Int × Estat) :=
  match executa RAND_MAX ind (llegeix_parametres atoi atof argv) g with
  | none => none
  | some s => some (0, s)

/-- Storage whose uninitialised cells all hold the value 7. -/
def ind_exemple : Indeterminat :=
  { nova_pob := fun _ => ⟨[], 7⟩, fill1 := fun _ => 7, fill2 := fun _ => 7 }

/-- A genome of exactly `NUM_GENS` genes, each 0 or 1. -/
def genoma_valid (v : List Int) : Prop := v.length = NUM_GENS ∧ binari v

/-- An individual whose cached error is the value of `calcula_error` on its
own genome. -/
def coherent (c : Cromosoma) : Prop := c.error = calcula_error c.gens

/-- A coherent individual with a valid genome. -/
def individu_valid (c : Cromosoma) : Prop := genoma_valid c.gens ∧ coherent c

/-- A population of exactly `n` valid individuals. -/
def poblacio_valida (n : Nat) (P : List Cromosoma) : Prop :=
  P.length = n ∧ ∀ c ∈ P, individu_valid c

/-- The sequence of the pairs of children that `m` successive iterations of the
generation-building loop breed, and the random source afterwards. -/
def cries (RAND_MAX : Nat) (ind : Indeterminat) (poblacio : List Cromosoma) (n k : Nat)
    (pmut : ℚ) : Nat → RandSrc → Option (List (List Int × List Int) × RandSrc)
  | 0, g => some ([], g)
  | m + 1, g =>
    match cria RAND_MAX ind poblacio n k pmut g with
    | none => none
    | some (fills, g1) =>
      match cries RAND_MAX ind poblacio n k pmut m g1 with
      | none => none
      | some (fs, g2) => some (fills :: fs, g2)

/-- The individual made of child `j mod 2` of pair `j / 2` of a sequence of
pairs of children, with its error computed. -/
def individu_de (fs : List (List Int × List Int)) (j : Nat) : Cromosoma :=
  if j % 2 = 0 then ⟨(fs.getD (j / 2) ([], [])).1, calcula_error (fs.getD (j / 2) ([], [])).1⟩
  else ⟨(fs.getD (j / 2) ([], [])).2, calcula_error (fs.getD (j / 2) ([], [])).2⟩

/-- What holds of the variables of `main` whenever the condition of the
generation loop is tested; `pob0` is the initial population. -/
structure Inv (n : Nat) (pob0 : List Cromosoma) (s : Estat) : Prop where
  pob : poblacio_valida n s.poblacio
  nova : s.nova_pob.length = n
  millor : individu_valid s.millor_solucio
  aval : ∀ P ∈ s.avaluades, poblacio_valida n P
  inf : ∀ (j : Nat) (r : Informe), s.informes[j]? = some r →
    r.generacio = j + 1 ∧ ∃ P, s.avaluades[j]? = some P ∧
      (∃ c ∈ P, c.gens = r.gens ∧ c.error = r.error) ∧ ∀ d ∈ P, r.error ≤ d.error
  inf_len : s.informes.length = s.avaluades.length
  minim : ∀ P ∈ pob0 :: s.avaluades, ∀ c ∈ P, s.millor_solucio.error ≤ c.error
  abans : s.avaluades = [] →
    s.poblacio = pob0 ∧ s.millor_solucio ∈ pob0 ∧ s.generacio_millor = 1
  primera : s.avaluades ≠ [] →
    s.avaluades.head? = some pob0 ∧ 1 ≤ s.generacio_millor ∧
    s.generacio_millor ≤ s.avaluades.length ∧
    (∃ P, s.avaluades[s.generacio_millor - 1]? = some P ∧ s.millor_solucio ∈ P) ∧
    ∀ j < s.generacio_millor - 1, ∀ P, s.avaluades[j]? = some P →
      ∀ c ∈ P, s.millor_solucio.error < c.error

/-- No population examined so far holds an individual of error 0. -/
def sense_zero (s : Estat) : Prop := ∀ P ∈ s.avaluades, ∀ c ∈ P, c.error ≠ 0

/-- How the generation loop has ended when `total` iterations were allowed:
either all of them ran and no population examined holds an individual of
error 0, or the loop was left by `break` at the first population that holds
one, which is still the current population. -/
def Final (total : Nat) (s : Estat) : Prop :=
  (s.avaluades.length = total ∧ sense_zero s) ∨
  (1 ≤ s.avaluades.length ∧ s.avaluades.length ≤ total ∧ s.millor_solucio.error = 0 ∧
    s.avaluades[s.avaluades.length - 1]? = some s.poblacio ∧
    (∃ c ∈ s.poblacio, c.error = 0) ∧
    ∀ j < s.avaluades.length - 1, ∀ P, s.avaluades[j]? = some P → ∀ c ∈ P, c.error ≠ 0)

/-- Every individual of a population holds the gene `b` at position `j`. -/
def fixat (j : Nat) (b : Int) (P : List Cromosoma) : Prop := ∀ c ∈ P, c.gens[j]? = some b

/-- A gene that a whole examined population shares is shared by every
population examined after it and by the current population. -/
def hereta (s : Estat) : Prop :=
  ∀ (j : Nat) (b : Int) (i : Nat) (P : List Cromosoma), s.avaluades[i]? = some P → fixat j b P →
    (∀ (i1 : Nat) (P1 : List Cromosoma), i ≤ i1 → s.avaluades[i1]? = some P1 → fixat j b P1) ∧
    fixat j b s.poblacio

/-- The run parameters of the examples: 3 generations, 3 individuals,
mutation probability 0.05, tournaments of 2. -/
def params_exemple : Params := ⟨3, 3, 1 / 20, 2⟩

/-- A conversion standing for `atoi` in the examples: `"2"` is read as 2 and
every other text as 0. -/
def atoi_exemple : String → Int := fun t => if t = "2" then 2 else 0

/-- A conversion standing for `atof` in the examples: every text is read as 2. -/
def atof_exemple : String → ℚ := fun _ => 2

/-- The number of values `r` of `0 .. RAND_MAX` for which `tournament_selection`
with `k = 1` returns the index `i` when its single draw is `r`. -/
def recompte (RAND_MAX : Nat) (poblacio : List Cromosoma) (n i : Nat) : Nat :=
  ((Finset.range (RAND_MAX + 1)).filter
    (fun r => (tournament_selection poblacio n 1 (fun _ => r)).map Prod.fst = some i)).card

/-- A population of three copies of one individual of error 0. -/
def poblacio_tres : List Cromosoma := List.replicate 3 ⟨genoma_exacte, 0⟩

/-! ## Theorems -/

/-! ### Machine integers -/

theorem wrap32_eq_self {x : Int} (h1 : -2147483648 ≤ x) (h2 : x ≤ 2147483647) :
    wrap32 x = x := by
  unfold wrap32; omega

theorem in_int_eq_true {x : Int} (h1 : -2147483648 ≤ x) (h2 : x ≤ 2147483647) :
    in_int x = true := by
  simp [in_int, h1, h2]

/-! ### The objective function -/

theorem binari_getD {v : List Int} (hb : binari v) (i : Nat) :
    v.getD i 0 = 0 ∨ v.getD i 0 = 1 := by
  by_cases h : i < v.length
  · rw [List.getD_eq_getElem v 0 h]
    exact hb _ (List.getElem_mem h)
  · left
    exact List.getD_eq_default v 0 (Nat.le_of_not_lt h)

/-- One term of the weighted sum is between 0 and 900 for a binary genome. -/
theorem terme_bounds {v : List Int} (hb : binari v) {i : Nat} (hi : i < 30) :
    0 ≤ v.getD i 0 * ((i : Int) + 1) ∧ v.getD i 0 * ((i : Int) + 1) ≤ 30 ∧
    0 ≤ v.getD i 0 * ((i : Int) + 1) * ((i : Int) + 1) ∧
    v.getD i 0 * ((i : Int) + 1) * ((i : Int) + 1) ≤ 900 := by
  have hi' : (i : Int) + 1 ≤ 30 := by omega
  have h0 : (0 : Int) ≤ (i : Int) + 1 := by omega
  have hsq : ((i : Int) + 1) * ((i : Int) + 1) ≤ 900 := by nlinarith
  have hsq0 : 0 ≤ ((i : Int) + 1) * ((i : Int) + 1) := by nlinarith
  rcases binari_getD hb i with h | h <;> rw [h] <;> simp <;> omega

/-- Invariant of the loop of `calcula_error` on a binary genome: starting at
index `i` with a running sum in `0 .. 900 * i`, the `m` remaining iterations
add the terms `i .. i + m - 1` and no operation leaves the `int` range; the
checked loop returns the same value. -/
theorem calcula_error_loop_spec {v : List Int} (hb : binari v) :
    ∀ (m i : Nat) (suma : Int), i + m ≤ 30 → 0 ≤ suma → suma ≤ 900 * (i : Int) →
      calcula_error_loop v m i suma
        = suma + ∑ j in Finset.range m, v.getD (i + j) 0 * (((i + j : Nat) : Int) + 1) ^ 2
      ∧ calcula_error_loop_checked v m i suma = some (calcula_error_loop v m i suma)
      ∧ 0 ≤ calcula_error_loop v m i suma
      ∧ calcula_error_loop v m i suma ≤ 900 * ((i + m : Nat) : Int) := by
  intro m
  induction m with
  | zero =>
    intro i suma _ h0 h1
    simp [calcula_error_loop, calcula_error_loop_checked, h0, h1]
  | succ m ih =>
    intro i suma hi h0 h1
    obtain ⟨t1, t2, t3, t4⟩ := terme_bounds hb (show i < 30 by omega)
    have w1 : wrap32 (v.getD i 0 * ((i : Int) + 1)) = v.getD i 0 * ((i : Int) + 1) :=
      wrap32_eq_self (by omega) (by omega)
    have w2 : wrap32 (v.getD i 0 * ((i : Int) + 1) * ((i : Int) + 1))
        = v.getD i 0 * ((i : Int) + 1) * ((i : Int) + 1) :=
      wrap32_eq_self (by omega) (by omega)
    have w3 : wrap32 (suma + v.getD i 0 * ((i : Int) + 1) * ((i : Int) + 1))
        = suma + v.getD i 0 * ((i : Int) + 1) * ((i : Int) + 1) :=
      wrap32_eq_self (by omega) (by omega)
    have hstep : calcula_error_loop v (m + 1) i suma
        = calcula_error_loop v m (i + 1)
            (suma + v.getD i 0 * ((i : Int) + 1) * ((i : Int) + 1)) := by
      rw [calcula_error_loop, w1, w2, w3]
    have hchk : calcula_error_loop_checked v (m + 1) i suma
        = calcula_error_loop_checked v m (i + 1)
            (suma + v.getD i 0 * ((i : Int) + 1) * ((i : Int) + 1)) := by
      rw [calcula_error_loop_checked]
      simp only [in_int_eq_true (show (-2147483648 : Int) ≤ v.getD i 0 * ((i : Int) + 1) by omega)
          (by omega),
        in_int_eq_true (show (-2147483648 : Int)
          ≤ v.getD i 0 * ((i : Int) + 1) * ((i : Int) + 1) by omega) (by omega),
        in_int_eq_true (show (-2147483648 : Int)
          ≤ suma + v.getD i 0 * ((i : Int) + 1) * ((i : Int) + 1) by omega) (by omega),
        Bool.and_self, if_true]
    obtain ⟨r1, r2, r3, r4⟩ := ih (i + 1)
      (suma + v.getD i 0 * ((i : Int) + 1) * ((i : Int) + 1))
      (by omega) (by omega) (by push_cast; omega)
    rw [hstep, hchk]
    refine ⟨?_, r2, r3, ?_⟩
    · rw [r1, Finset.sum_range_succ']
      have : ∀ j, i + 1 + j = i + (j + 1) := fun j => by omega
      simp only [this, Nat.add_zero]
      push_cast
      ring
    · have : i + 1 + m = i + (m + 1) := by omega
      rw [this] at r4
      exact r4

/-- The weighted sum of a binary genome is between 0 and 9455. -/
theorem suma_ponderada_bounds {v : List Int} (hb : binari v) :
    0 ≤ ∑ i in Finset.range 30, v.getD i 0 * ((i : Int) + 1) ^ 2 ∧
    ∑ i in Finset.range 30, v.getD i 0 * ((i : Int) + 1) ^ 2 ≤ 9455 := by
  constructor
  · apply Finset.sum_nonneg
    intro i _
    rcases binari_getD hb i with h | h <;> rw [h] <;> positivity
  · have h9455 : ∑ i in Finset.range 30, ((i : Int) + 1) ^ 2 = 9455 := by decide
    rw [← h9455]
    apply Finset.sum_le_sum
    intro i _
    rcases binari_getD hb i with h | h <;> rw [h] <;> simp <;> positivity

/-- On a binary genome the loop of `calcula_error` computes the weighted sum. -/
theorem calcula_error_loop_eq {v : List Int} (hb : binari v) :
    calcula_error_loop v NUM_GENS 0 0
      = ∑ i in Finset.range 30, v.getD i 0 * ((i : Int) + 1) ^ 2 ∧
    calcula_error_loop_checked v NUM_GENS 0 0 = some (calcula_error_loop v NUM_GENS 0 0) := by
  obtain ⟨r1, r2, _, _⟩ := calcula_error_loop_spec hb 30 0 0 (by omega) (by omega) (by omega)
  refine ⟨?_, r2⟩
  show calcula_error_loop v 30 0 0 = _
  rw [r1]
  simp

/-- On a binary genome `calcula_error` is the unwrapped absolute difference. -/
theorem calcula_error_eq {v : List Int} (hb : binari v) :
    calcula_error v = |(∑ i in Finset.range 30, v.getD i 0 * ((i : Int) + 1) ^ 2) - 1977| := by
  obtain ⟨h0, h1⟩ := suma_ponderada_bounds hb
  unfold calcula_error TARGET
  rw [(calcula_error_loop_eq hb).1]
  have e1 : wrap32 ((∑ i in Finset.range 30, v.getD i 0 * ((i : Int) + 1) ^ 2) - 1977)
      = (∑ i in Finset.range 30, v.getD i 0 * ((i : Int) + 1) ^ 2) - 1977 :=
    wrap32_eq_self (by omega) (by omega)
  rw [e1]
  apply wrap32_eq_self
  · have := abs_nonneg ((∑ i in Finset.range 30, v.getD i 0 * ((i : Int) + 1) ^ 2) - 1977)
    omega
  · rw [abs_le]; constructor <;> omega

/-- C1: for every genome `v` of 30 binary values, `calcula_error v` is the
absolute value of (the sum over `i = 0..29` of `v[i] * (i+1)^2`) minus 1977. -/
theorem calcula_error_formula (v : List Int) (_hlen : v.length = NUM_GENS) (hb : binari v) :
    calcula_error v = |(∑ i in Finset.range 30, v.getD i 0 * ((i : Int) + 1) ^ 2) - 1977| :=
  calcula_error_eq hb

set_option maxRecDepth 100000 in
theorem calcula_error_formula_witness :
    calcula_error (List.replicate 30 1)
      = |(∑ i in Finset.range 30, (List.replicate 30 (1 : Int)).getD i 0 * ((i : Int) + 1) ^ 2)
          - 1977| :=
  calcula_error_formula (List.replicate 30 1) (by decide) (by decide)

/-- For a binary genome the weighted sum is the sum of `(i+1)^2` over the
positions that hold a one. -/
theorem suma_ponderada_eq_filter {v : List Int} (hb : binari v) :
    ∑ i in Finset.range 30, v.getD i 0 * ((i : Int) + 1) ^ 2
      = ∑ i in (Finset.range 30).filter (fun i => v.getD i 0 = 1), ((i : Int) + 1) ^ 2 := by
  rw [Finset.sum_filter]
  apply Finset.sum_congr rfl
  intro i _
  rcases binari_getD hb i with h | h <;> rw [h] <;> simp

/-- C2: for every genome `v` of 30 binary values, `calcula_error v = 0` if and
only if the sum of `(i+1)^2` over the positions `i` with `v[i] = 1` is exactly
1977. -/
theorem calcula_error_zero_iff (v : List Int) (_hlen : v.length = NUM_GENS) (hb : binari v) :
    calcula_error v = 0 ↔
      ∑ i in (Finset.range 30).filter (fun i => v.getD i 0 = 1), ((i : Int) + 1) ^ 2 = 1977 := by
  rw [calcula_error_eq hb, suma_ponderada_eq_filter hb, abs_eq_zero]
  omega

set_option maxRecDepth 100000 in
theorem calcula_error_zero_iff_witness :
    calcula_error genoma_exacte = 0 ↔
      ∑ i in (Finset.range 30).filter (fun i => genoma_exacte.getD i 0 = 1),
        ((i : Int) + 1) ^ 2 = 1977 :=
  calcula_error_zero_iff genoma_exacte (by decide) (by decide)

/-- C3: for every genome of 30 binary values the running sum of
`calcula_error` stays in `0 .. 9455`, no operation of the function leaves the
range of a 32-bit signed `int` (the overflow-checked evaluation succeeds with
the same value), and the result lies in `0 .. 7478`. -/
theorem calcula_error_range (v : List Int) (_hlen : v.length = NUM_GENS) (hb : binari v) :
    0 ≤ calcula_error_loop v NUM_GENS 0 0 ∧ calcula_error_loop v NUM_GENS 0 0 ≤ 9455 ∧
    calcula_error_checked v = some (calcula_error v) ∧
    0 ≤ calcula_error v ∧ calcula_error v ≤ 7478 := by
  obtain ⟨h0, h1⟩ := suma_ponderada_bounds hb
  obtain ⟨e1, e2⟩ := calcula_error_loop_eq hb
  have habs0 := abs_nonneg ((∑ i in Finset.range 30, v.getD i 0 * ((i : Int) + 1) ^ 2) - 1977)
  have habs1 : |(∑ i in Finset.range 30, v.getD i 0 * ((i : Int) + 1) ^ 2) - 1977| ≤ 7478 := by
    rw [abs_le]; constructor <;> omega
  refine ⟨by rw [e1]; exact h0, by rw [e1]; exact h1, ?_, ?_, ?_⟩
  · unfold calcula_error_checked
    rw [e2]
    simp only [TARGET]
    rw [calcula_error_eq hb, e1,
      in_int_eq_true (show (-2147483648 : Int)
        ≤ (∑ i in Finset.range 30, v.getD i 0 * ((i : Int) + 1) ^ 2) - 1977 by omega) (by omega),
      in_int_eq_true (show (-2147483648 : Int)
        ≤ |(∑ i in Finset.range 30, v.getD i 0 * ((i : Int) + 1) ^ 2) - 1977| by omega)
        (by omega)]
    simp
  · rw [calcula_error_eq hb]; exact habs0
  · rw [calcula_error_eq hb]; exact habs1

set_option maxRecDepth 100000 in
theorem calcula_error_range_witness :
    0 ≤ calcula_error_loop (List.replicate 30 1) NUM_GENS 0 0 ∧
    calcula_error_loop (List.replicate 30 1) NUM_GENS 0 0 ≤ 9455 ∧
    calcula_error_checked (List.replicate 30 1) = some (calcula_error (List.replicate 30 1)) ∧
    0 ≤ calcula_error (List.replicate 30 1) ∧ calcula_error (List.replicate 30 1) ≤ 7478 :=
  calcula_error_range (List.replicate 30 1) (by decide) (by decide)

set_option maxRecDepth 100000 in
/-- C4: there is a genome of 30 binary values, with ones exactly at the
1-based positions 2, 6, 14, 29 and 30, whose weighted bit-sum is
`4 + 36 + 196 + 841 + 900 = 1977` and for which `calcula_error` returns 0. -/
theorem calcula_error_zero_reachable :
    ∃ v : List Int, v.length = NUM_GENS ∧ binari v ∧
      (∀ i < 30, v.getD i 0 = 1 ↔ (i + 1 = 2 ∨ i + 1 = 6 ∨ i + 1 = 14 ∨ i + 1 = 29 ∨ i + 1 = 30)) ∧
      ∑ i in Finset.range 30, v.getD i 0 * ((i : Int) + 1) ^ 2 = 4 + 36 + 196 + 841 + 900 ∧
      ∑ i in Finset.range 30, v.getD i 0 * ((i : Int) + 1) ^ 2 = 1977 ∧
      calcula_error v = 0 :=
  ⟨genoma_exacte, by decide, by decide, by decide, by decide, by decide, by decide⟩


/-! ### Crossover -/

/-- What one output array of a copying loop holds afterwards: the source gene
at the positions `i .. i + m - 1` the loop went through, the old content
elsewhere. -/
theorem set_loop_getElem? (src : List Int) (i : Nat) (fill : List Int) (j : Nat) :
    (fill.set i (src.getD i 0))[j]?
      = if i = j ∧ j < fill.length then some (src.getD j 0) else fill[j]? := by
  rw [List.getElem?_set]
  by_cases h : i = j
  · subst h
    by_cases h2 : i < fill.length
    · simp [h2]
    · simp [h2, List.getElem?_eq_none (Nat.le_of_not_lt h2)]
  · simp [h]

theorem crossover_loop_getElem? (src1 src2 : List Int) :
    ∀ (m i : Nat) (fills : List Int × List Int) (j : Nat),
      (crossover_loop src1 src2 m i fills).1[j]?
        = (if i ≤ j ∧ j < i + m ∧ j < fills.1.length then some (src1.getD j 0)
           else fills.1[j]?) ∧
      (crossover_loop src1 src2 m i fills).2[j]?
        = (if i ≤ j ∧ j < i + m ∧ j < fills.2.length then some (src2.getD j 0)
           else fills.2[j]?) := by
  intro m
  induction m with
  | zero =>
    intro i fills j
    have h : ¬ (i ≤ j ∧ j < i + 0 ∧ j < fills.1.length) := by omega
    have h2 : ¬ (i ≤ j ∧ j < i + 0 ∧ j < fills.2.length) := by omega
    simp only [crossover_loop, h, h2, if_false, and_self]
  | succ m ih =>
    intro i fills j
    rw [crossover_loop]
    obtain ⟨e1, e2⟩ := ih (i + 1)
      (fills.1.set i (src1.getD i 0), fills.2.set i (src2.getD i 0)) j
    rw [e1, e2]
    simp only [List.length_set, set_loop_getElem?]
    constructor
    · by_cases c1 : i + 1 ≤ j ∧ j < i + 1 + m ∧ j < fills.1.length
      · have c2 : i ≤ j ∧ j < i + (m + 1) ∧ j < fills.1.length := by omega
        rw [if_pos c1, if_pos c2]
      · rw [if_neg c1]
        by_cases c3 : i = j ∧ j < fills.1.length
        · have c2 : i ≤ j ∧ j < i + (m + 1) ∧ j < fills.1.length := by omega
          rw [if_pos c3, if_pos c2]
        · have c2 : ¬ (i ≤ j ∧ j < i + (m + 1) ∧ j < fills.1.length) := by omega
          rw [if_neg c3, if_neg c2]
    · by_cases c1 : i + 1 ≤ j ∧ j < i + 1 + m ∧ j < fills.2.length
      · have c2 : i ≤ j ∧ j < i + (m + 1) ∧ j < fills.2.length := by omega
        rw [if_pos c1, if_pos c2]
      · rw [if_neg c1]
        by_cases c3 : i = j ∧ j < fills.2.length
        · have c2 : i ≤ j ∧ j < i + (m + 1) ∧ j < fills.2.length := by omega
          rw [if_pos c3, if_pos c2]
        · have c2 : ¬ (i ≤ j ∧ j < i + (m + 1) ∧ j < fills.2.length) := by omega
          rw [if_neg c3, if_neg c2]

/-- A copying loop keeps the length of both output arrays. -/
theorem crossover_loop_length (src1 src2 : List Int) :
    ∀ (m i : Nat) (fills : List Int × List Int),
      (crossover_loop src1 src2 m i fills).1.length = fills.1.length ∧
      (crossover_loop src1 src2 m i fills).2.length = fills.2.length := by
  intro m
  induction m with
  | zero => intro i fills; simp [crossover_loop]
  | succ m ih =>
    intro i fills
    rw [crossover_loop]
    obtain ⟨e1, e2⟩ := ih (i + 1)
      (fills.1.set i (src1.getD i 0), fills.2.set i (src2.getD i 0))
    rw [e1, e2]
    simp

/-- Gene `j` of the concatenation `a[0:cut] ++ b[cut:30]` of two genomes. -/
theorem take_append_drop_getElem? (a b : List Int) (cut j : Nat)
    (ha : a.length = 30) (hcut : cut ≤ 30) :
    (a.take cut ++ b.drop cut)[j]? = if j < cut then a[j]? else b[j]? := by
  rw [List.getElem?_append, List.length_take, ha, Nat.min_eq_left hcut]
  by_cases h : j < cut
  · rw [if_pos h, if_pos h, List.getElem?_take, if_pos h]
  · rw [if_neg h, if_neg h, List.getElem?_drop]
    congr 1
    omega

/-- The two children of `crossover` when the cut point is `punt`: the
previous contents of the output arrays are overwritten entirely. -/
theorem crossover_children (pare1 pare2 fill1 fill2 : List Int) (punt : Nat)
    (h1 : pare1.length = 30) (h2 : pare2.length = 30)
    (h3 : fill1.length = 30) (h4 : fill2.length = 30) (hp : punt ≤ 30) :
    crossover_loop pare2 pare1 (30 - punt) punt
        (crossover_loop pare1 pare2 punt 0 (fill1, fill2))
      = (pare1.take punt ++ pare2.drop punt, pare2.take punt ++ pare1.drop punt) := by
  have key : ∀ (a b f : List Int) (j : Nat), a.length = 30 → b.length = 30 → f.length = 30 →
      (if punt ≤ j ∧ j < punt + (30 - punt) ∧
          j < 30 then some (b.getD j 0)
        else if 0 ≤ j ∧ j < 0 + punt ∧ j < f.length then some (a.getD j 0) else f[j]?)
      = if j < punt then a[j]? else b[j]? := by
    intro a b f j ha hb hf
    by_cases c : j < punt
    · have c1 : ¬ (punt ≤ j ∧ j < punt + (30 - punt) ∧ j < 30) := by omega
      have c2 : 0 ≤ j ∧ j < 0 + punt ∧ j < f.length := by omega
      rw [if_neg c1, if_pos c2, if_pos c, List.getD_eq_getElem a 0 (by omega),
        List.getElem?_eq_getElem]
    · rw [if_neg c]
      by_cases c3 : j < 30
      · have c1 : punt ≤ j ∧ j < punt + (30 - punt) ∧ j < 30 := by omega
        rw [if_pos c1, List.getD_eq_getElem b 0 (by omega), List.getElem?_eq_getElem]
      · have c1 : ¬ (punt ≤ j ∧ j < punt + (30 - punt) ∧ j < 30) := by omega
        have c2 : ¬ (0 ≤ j ∧ j < 0 + punt ∧ j < f.length) := by omega
        rw [if_neg c1, if_neg c2, List.getElem?_eq_none (by omega),
          List.getElem?_eq_none (by omega)]
  have len1 : (crossover_loop pare1 pare2 punt 0 (fill1, fill2)).1.length = 30 := by
    rw [(crossover_loop_length pare1 pare2 punt 0 (fill1, fill2)).1]; exact h3
  have len2 : (crossover_loop pare1 pare2 punt 0 (fill1, fill2)).2.length = 30 := by
    rw [(crossover_loop_length pare1 pare2 punt 0 (fill1, fill2)).2]; exact h4
  apply Prod.ext
  · apply List.ext_getElem?
    intro j
    rw [(crossover_loop_getElem? pare2 pare1 (30 - punt) punt _ j).1,
      (crossover_loop_getElem? pare1 pare2 punt 0 (fill1, fill2) j).1, len1,
      take_append_drop_getElem? pare1 pare2 punt j h1 hp]
    exact key pare1 pare2 fill1 j h1 h2 h3
  · apply List.ext_getElem?
    intro j
    rw [(crossover_loop_getElem? pare2 pare1 (30 - punt) punt _ j).2,
      (crossover_loop_getElem? pare1 pare2 punt 0 (fill1, fill2) j).2, len2,
      take_append_drop_getElem? pare2 pare1 punt j h2 hp]
    exact key pare2 pare1 fill2 j h2 h1 h4

/-- The cut point `r mod 29 + 1` lies in `1 .. 29`. -/
theorem punt_bounds (r : Nat) : 1 ≤ r % (NUM_GENS - 1) + 1 ∧ r % (NUM_GENS - 1) + 1 ≤ 29 := by
  have : r % (NUM_GENS - 1) < 29 := Nat.mod_lt _ (by decide)
  omega

/-- The function `crossover` in closed form, for genomes and output arrays of
30 genes. -/
theorem crossover_eq (pare1 pare2 fill1 fill2 : List Int) (g : RandSrc)
    (h1 : pare1.length = 30) (h2 : pare2.length = 30)
    (h3 : fill1.length = 30) (h4 : fill2.length = 30) :
    crossover pare1 pare2 fill1 fill2 g
      = ((pare1.take (g 0 % 29 + 1) ++ pare2.drop (g 0 % 29 + 1),
          pare2.take (g 0 % 29 + 1) ++ pare1.drop (g 0 % 29 + 1)),
         fun i => g (i + 1)) := by
  have hp := (punt_bounds (g 0)).2
  unfold crossover
  simp only [rand]
  rw [show NUM_GENS = 30 from rfl] at hp ⊢
  rw [crossover_children pare1 pare2 fill1 fill2 (g 0 % (30 - 1) + 1) h1 h2 h3 h4 (by omega)]

/-- C5: for parents `p1`, `p2` and a raw draw `r = g 0`, `crossover` uses the
cut point `cut = r mod 29 + 1`, which lies in `1 .. 29`, and produces
`child1 = p1[0:cut] ++ p2[cut:30]` and `child2 = p2[0:cut] ++ p1[cut:30]`
(whatever the output arrays held before); `child1` has gene 0 of `p1` and
gene 29 of `p2`, `child2` the converse. One draw is consumed. -/
theorem crossover_spec (p1 p2 fill1 fill2 : List Int) (g : RandSrc)
    (h1 : p1.length = NUM_GENS) (h2 : p2.length = NUM_GENS)
    (h3 : fill1.length = NUM_GENS) (h4 : fill2.length = NUM_GENS) :
    1 ≤ g 0 % 29 + 1 ∧ g 0 % 29 + 1 ≤ 29 ∧
    crossover p1 p2 fill1 fill2 g
      = ((p1.take (g 0 % 29 + 1) ++ p2.drop (g 0 % 29 + 1),
          p2.take (g 0 % 29 + 1) ++ p1.drop (g 0 % 29 + 1)),
         fun i => g (i + 1)) ∧
    (crossover p1 p2 fill1 fill2 g).1.1.getD 0 0 = p1.getD 0 0 ∧
    (crossover p1 p2 fill1 fill2 g).1.1.getD 29 0 = p2.getD 29 0 ∧
    (crossover p1 p2 fill1 fill2 g).1.2.getD 0 0 = p2.getD 0 0 ∧
    (crossover p1 p2 fill1 fill2 g).1.2.getD 29 0 = p1.getD 29 0 := by
  have hp := punt_bounds (g 0)
  rw [show NUM_GENS = 30 from rfl] at hp h1 h2 h3 h4
  have hc : g 0 % 29 + 1 ≤ 30 := by omega
  have e := crossover_eq p1 p2 fill1 fill2 g h1 h2 h3 h4
  refine ⟨by omega, by omega, e, ?_, ?_, ?_, ?_⟩ <;>
    rw [e] <;>
    simp only [List.getD_eq_getElem?_getD] <;>
    rw [take_append_drop_getElem? _ _ _ _ (by assumption) hc]
  · rw [if_pos (by omega)]
  · rw [if_neg (by omega)]
  · rw [if_pos (by omega)]
  · rw [if_neg (by omega)]

/-- C6: crossover is its own inverse at a fixed cut point: applying
`crossover` with the same draw to the two children of `(p1, p2)` returns
`(p1, p2)`. -/
theorem crossover_involutive (p1 p2 fill1 fill2 fill3 fill4 : List Int) (g : RandSrc)
    (h1 : p1.length = NUM_GENS) (h2 : p2.length = NUM_GENS)
    (h3 : fill1.length = NUM_GENS) (h4 : fill2.length = NUM_GENS)
    (h5 : fill3.length = NUM_GENS) (h6 : fill4.length = NUM_GENS) :
    (crossover (crossover p1 p2 fill1 fill2 g).1.1 (crossover p1 p2 fill1 fill2 g).1.2
        fill3 fill4 g).1 = (p1, p2) := by
  have hp := punt_bounds (g 0)
  rw [show NUM_GENS = 30 from rfl] at hp h1 h2 h3 h4 h5 h6
  have hc : g 0 % 29 + 1 ≤ 30 := by omega
  have e := crossover_eq p1 p2 fill1 fill2 g h1 h2 h3 h4
  have l1 : (p1.take (g 0 % 29 + 1) ++ p2.drop (g 0 % 29 + 1)).length = 30 := by
    rw [List.length_append, List.length_take, List.length_drop]; omega
  have l2 : (p2.take (g 0 % 29 + 1) ++ p1.drop (g 0 % 29 + 1)).length = 30 := by
    rw [List.length_append, List.length_take, List.length_drop]; omega
  rw [e]
  simp only
  rw [crossover_eq _ _ fill3 fill4 g l1 l2 h5 h6]
  simp only
  apply Prod.ext
  · apply List.ext_getElem?
    intro j
    simp only
    rw [take_append_drop_getElem? _ _ _ j l1 hc, take_append_drop_getElem? _ _ _ j h1 hc,
      take_append_drop_getElem? _ _ _ j h2 hc]
    by_cases c : j < g 0 % 29 + 1 <;> simp [c]
  · apply List.ext_getElem?
    intro j
    simp only
    rw [take_append_drop_getElem? _ _ _ j l2 hc, take_append_drop_getElem? _ _ _ j h1 hc,
      take_append_drop_getElem? _ _ _ j h2 hc]
    by_cases c : j < g 0 % 29 + 1 <;> simp [c]

theorem crossover_spec_witness :
    (crossover genoma_exacte (List.replicate 30 1) (List.replicate 30 7) (List.replicate 30 8)
        (rand_de [40])).1.1.getD 0 0 = genoma_exacte.getD 0 0 :=
  (crossover_spec genoma_exacte (List.replicate 30 1) (List.replicate 30 7)
    (List.replicate 30 8) (rand_de [40]) (by decide) (by decide) (by decide)
    (by decide)).2.2.2.1

theorem crossover_involutive_witness :
    (crossover
        (crossover genoma_exacte (List.replicate 30 1) (List.replicate 30 7)
          (List.replicate 30 8) (rand_de [40])).1.1
        (crossover genoma_exacte (List.replicate 30 1) (List.replicate 30 7)
          (List.replicate 30 8) (rand_de [40])).1.2
        (List.replicate 30 5) (List.replicate 30 6) (rand_de [40])).1
      = (genoma_exacte, List.replicate 30 1) :=
  crossover_involutive genoma_exacte (List.replicate 30 1) (List.replicate 30 7)
    (List.replicate 30 8) (List.replicate 30 5) (List.replicate 30 6) (rand_de [40])
    (by decide) (by decide) (by decide) (by decide) (by decide) (by decide)

/-! ### Mutation -/

/-- With `prob = 0` the test of `mutacio` fails at every draw. -/
theorem mut_test_zero (RAND_MAX r : Nat) : ¬ ((r : ℚ) / (RAND_MAX : ℚ) < 0) := by
  have : (0 : ℚ) ≤ (r : ℚ) / (RAND_MAX : ℚ) := by positivity
  exact not_lt.mpr this

/-- With `prob = 1` the test of `mutacio` succeeds exactly at the draws below
`RAND_MAX`. -/
theorem mut_test_one (RAND_MAX r : Nat) (hR : 0 < RAND_MAX) :
    (r : ℚ) / (RAND_MAX : ℚ) < 1 ↔ r < RAND_MAX := by
  have hq : (0 : ℚ) < (RAND_MAX : ℚ) := by exact_mod_cast hR
  rw [div_lt_one hq]
  exact_mod_cast Iff.rfl

theorem mutacio_loop_zero (RAND_MAX : Nat) :
    ∀ (m i : Nat) (gens : List Int) (g : RandSrc),
      mutacio_loop RAND_MAX 0 m i gens g = (gens, fun j => g (j + m)) := by
  intro m
  induction m with
  | zero => intro i gens g; rfl
  | succ m ih =>
    intro i gens g
    rw [mutacio_loop, if_neg (mut_test_zero RAND_MAX _), ih]
    rfl

/-- C7: for `prob = 0.0`, `mutacio` is the identity: whatever the genome and
whatever the 30 draws, the genome after the call is the genome before it (and
30 draws have been consumed). -/
theorem mutacio_prob_zero (RAND_MAX : Nat) (gens : List Int) (g : RandSrc) :
    mutacio RAND_MAX gens 0 g = (gens, fun j => g (j + 30)) :=
  mutacio_loop_zero RAND_MAX 30 0 gens g

/-- With `prob = 1` and `RAND_MAX > 0`, what the loop of `mutacio` leaves at
position `j`: the gene is replaced by `1 - gens[j]` when the loop goes through
`j` and the draw made there is below `RAND_MAX`, and is kept otherwise. -/
theorem mutacio_loop_one_getElem? (RAND_MAX : Nat) (hR : 0 < RAND_MAX) :
    ∀ (m i : Nat) (gens : List Int) (g : RandSrc) (j : Nat),
      (mutacio_loop RAND_MAX 1 m i gens g).1[j]?
        = if i ≤ j ∧ j < i + m ∧ j < gens.length ∧ g (j - i) < RAND_MAX then
            some (wrap32 (1 - gens.getD j 0))
          else gens[j]? := by
  intro m
  induction m with
  | zero =>
    intro i gens g j
    have h : ¬ (i ≤ j ∧ j < i + 0 ∧ j < gens.length ∧ g (j - i) < RAND_MAX) := by omega
    simp only [mutacio_loop, if_neg h]
  | succ m ih =>
    intro i gens g j
    rw [mutacio_loop, ih]
    simp only [rand, mut_test_one RAND_MAX _ hR]
    by_cases hd : g 0 < RAND_MAX
    · simp only [if_pos hd, List.length_set]
      by_cases c1 : i + 1 ≤ j ∧ j < i + 1 + m ∧ j < gens.length ∧ g (j - (i + 1) + 1) < RAND_MAX
      · have e : j - (i + 1) + 1 = j - i := by omega
        have c2 : i ≤ j ∧ j < i + (m + 1) ∧ j < gens.length ∧ g (j - i) < RAND_MAX := by
          rw [e] at c1; omega
        have hne : ¬ (i = j) := by omega
        rw [if_pos c1, if_pos c2]
        simp only [List.getD_eq_getElem?_getD, List.getElem?_set, if_neg hne]
      · rw [if_neg c1, List.getElem?_set]
        by_cases c3 : i = j
        · subst c3
          by_cases c4 : i < gens.length
          · have c2 : i ≤ i ∧ i < i + (m + 1) ∧ i < gens.length ∧ g (i - i) < RAND_MAX := by
              rw [Nat.sub_self]; omega
            rw [if_pos rfl, if_pos c4, if_pos c2]
          · have c2 : ¬ (i ≤ i ∧ i < i + (m + 1) ∧ i < gens.length ∧ g (i - i) < RAND_MAX) := by
              omega
            rw [if_pos rfl, if_neg c4, if_neg c2, List.getElem?_eq_none (by omega)]
        · have c2 : ¬ (i ≤ j ∧ j < i + (m + 1) ∧ j < gens.length ∧ g (j - i) < RAND_MAX) := by
            intro h
            apply c1
            have e : j - (i + 1) + 1 = j - i := by omega
            rw [e]; omega
          rw [if_neg c3, if_neg c2]
    · simp only [if_neg hd]
      by_cases c1 : i + 1 ≤ j ∧ j < i + 1 + m ∧ j < gens.length ∧ g (j - (i + 1) + 1) < RAND_MAX
      · have e : j - (i + 1) + 1 = j - i := by omega
        have c2 : i ≤ j ∧ j < i + (m + 1) ∧ j < gens.length ∧ g (j - i) < RAND_MAX := by
          rw [e] at c1; omega
        rw [if_pos c1, if_pos c2]
      · have c2 : ¬ (i ≤ j ∧ j < i + (m + 1) ∧ j < gens.length ∧ g (j - i) < RAND_MAX) := by
          intro h
          apply c1
          by_cases c3 : i = j
          · subst c3
            rw [Nat.sub_self] at h
            omega
          · have e : j - (i + 1) + 1 = j - i := by omega
            rw [e]; omega
        rw [if_neg c1, if_neg c2]

/-- With `prob = 1`, `0 < RAND_MAX` and every draw below `RAND_MAX`,
`mutacio` replaces a binary genome of 30 genes by its complement. -/
theorem mutacio_prob_one_of_lt (RAND_MAX : Nat) (gens : List Int) (g : RandSrc)
    (hR : 0 < RAND_MAX) (hlen : gens.length = NUM_GENS) (hb : binari gens)
    (hg : ∀ i < 30, g i < RAND_MAX) :
    (mutacio RAND_MAX gens 1 g).1 = gens.map (fun x => 1 - x) := by
  rw [show NUM_GENS = 30 from rfl] at hlen
  apply List.ext_getElem?
  intro j
  unfold mutacio
  rw [show NUM_GENS = 30 from rfl, mutacio_loop_one_getElem? RAND_MAX hR, List.getElem?_map]
  by_cases c : j < 30
  · have c2 : 0 ≤ j ∧ j < 0 + 30 ∧ j < gens.length ∧ g (j - 0) < RAND_MAX := by
      refine ⟨by omega, by omega, by omega, ?_⟩
      rw [Nat.sub_zero]; exact hg j c
    rw [if_pos c2, List.getElem?_eq_getElem (show j < gens.length by omega),
      List.getD_eq_getElem gens 0 (show j < gens.length by omega), Option.map_some']
    congr 1
    rcases hb _ (List.getElem_mem (show j < gens.length by omega)) with h | h <;>
      rw [h] <;> decide
  · have c2 : ¬ (0 ≤ j ∧ j < 0 + 30 ∧ j < gens.length ∧ g (j - 0) < RAND_MAX) := by omega
    rw [if_neg c2, List.getElem?_eq_none (show gens.length ≤ j by omega), Option.map_none']

theorem mutacio_prob_one_of_lt_witness :
    (mutacio 32767 genoma_exacte 1 (rand_de [5, 32766])).1
      = genoma_exacte.map (fun x => 1 - x) :=
  mutacio_prob_one_of_lt 32767 genoma_exacte (rand_de [5, 32766]) (by decide) (by decide)
    (by decide) (by decide)

/-- C8 fails on the code: with `prob = 1.0`, a gene whose draw is `RAND_MAX`
itself is not flipped, because `(double)RAND_MAX / RAND_MAX < 1.0` is false.
Here `RAND_MAX = 2147483647`, the genome is all zeros and only the first draw
is `RAND_MAX`: gene 0 stays 0, so the result is not the complement. -/
theorem mutacio_prob_one_not_complement :
    (mutacio 2147483647 (List.replicate 30 0) 1 (rand_de [2147483647])).1
        = 0 :: List.replicate 29 1 ∧
    (mutacio 2147483647 (List.replicate 30 0) 1 (rand_de [2147483647])).1
        ≠ (List.replicate 30 0).map (fun x => 1 - x) := by
  have e : (mutacio 2147483647 (List.replicate 30 0) 1 (rand_de [2147483647])).1
      = 0 :: List.replicate 29 1 := by
    simp [mutacio, mutacio_loop, rand, rand_de, NUM_GENS, wrap32]
  rw [e]
  exact ⟨rfl, by decide⟩

/-! ### Selection -/

theorem error_de_eq_getElem (poblacio : List Cromosoma) {i : Nat} (h : i < poblacio.length) :
    error_de poblacio i = poblacio[i].error := by
  unfold error_de
  rw [List.getD_eq_getElem poblacio _ h]

/-- One iteration of the selection loops: both reads are inside the population
and the comparison is the one of the cached errors. -/
theorem tournament_loop_succ (poblacio : List Cromosoma) (n m millor : Nat) (g : RandSrc)
    (hlen : poblacio.length = n) (hm : millor < n) (hn : 0 < n) :
    tournament_loop poblacio n (m + 1) millor g
      = tournament_loop poblacio n m
          (if error_de poblacio (g 0 % n) < error_de poblacio millor then g 0 % n else millor)
          (fun i => g (i + 1)) := by
  have hidx : g 0 % n < poblacio.length := by rw [hlen]; exact Nat.mod_lt _ hn
  have hm2 : millor < poblacio.length := by rw [hlen]; exact hm
  rw [tournament_loop]
  simp only [rand]
  rw [List.getElem?_eq_getElem hidx, List.getElem?_eq_getElem hm2,
    error_de_eq_getElem poblacio hidx, error_de_eq_getElem poblacio hm2]

/-- Invariant of the loop of `tournament_selection`: from a current best
`millor`, `m` further draws leave the first index of least error among
`millor` and the drawn ones. -/
theorem tournament_loop_spec (poblacio : List Cromosoma) (n : Nat)
    (hlen : poblacio.length = n) (hn : 0 < n) :
    ∀ (m millor : Nat) (g : RandSrc), millor < n →
      ∃ r, tournament_loop poblacio n m millor g = some (r, fun i => g (i + m)) ∧ r < n ∧
        error_de poblacio r ≤ error_de poblacio millor ∧
        (∀ j < m, error_de poblacio r ≤ error_de poblacio (g j % n)) ∧
        (r = millor ∨ ∃ j0 < m, r = g j0 % n ∧ error_de poblacio r < error_de poblacio millor ∧
          ∀ j < j0, error_de poblacio r < error_de poblacio (g j % n)) := by
  intro m
  induction m with
  | zero =>
    intro millor g hm
    exact ⟨millor, rfl, hm, le_refl _, fun j hj => absurd hj (Nat.not_lt_zero j), Or.inl rfl⟩
  | succ m ih =>
    intro millor g hm
    have hidx : g 0 % n < n := Nat.mod_lt _ hn
    rw [tournament_loop_succ poblacio n m millor g hlen hm hn]
    by_cases c : error_de poblacio (g 0 % n) < error_de poblacio millor
    · rw [if_pos c]
      obtain ⟨r, e, hr, h1, h2, h3⟩ := ih (g 0 % n) (fun i => g (i + 1)) hidx
      refine ⟨r, e, hr, by omega, ?_, Or.inr ?_⟩
      · intro j hj
        rcases j with _ | j
        · exact h1
        · exact h2 j (by omega)
      · rcases h3 with h3 | ⟨j0, hj0, e0, l0, a0⟩
        · exact ⟨0, by omega, h3, by rw [h3]; exact c, fun j hj => absurd hj (Nat.not_lt_zero j)⟩
        · refine ⟨j0 + 1, by omega, e0, by omega, ?_⟩
          intro j hj
          rcases j with _ | j
          · exact l0
          · exact a0 j (by omega)
    · rw [if_neg c]
      obtain ⟨r, e, hr, h1, h2, h3⟩ := ih millor (fun i => g (i + 1)) hm
      refine ⟨r, e, hr, h1, ?_, ?_⟩
      · intro j hj
        rcases j with _ | j
        · omega
        · exact h2 j (by omega)
      · rcases h3 with h3 | ⟨j0, hj0, e0, l0, a0⟩
        · exact Or.inl h3
        · refine Or.inr ⟨j0 + 1, by omega, e0, l0, ?_⟩
          intro j hj
          rcases j with _ | j
          · omega
          · exact a0 j (by omega)

/-- C9: for a population of size `n >= 1`, `k >= 1` and draws `g 0 .. g (k-1)`,
`tournament_selection` returns (after consuming exactly `k` draws) the index
`g j0 mod n` of one draw `j0 < k`; its error is at most the error of every
drawn index, and every index drawn before `j0` has a strictly larger error:
among the drawn indices of least error it is the one drawn first. -/
theorem tournament_selection_spec (poblacio : List Cromosoma) (n k : Nat) (g : RandSrc)
    (hlen : poblacio.length = n) (hn : 1 ≤ n) (hk : 1 ≤ k) :
    ∃ r j0, tournament_selection poblacio n k g = some (r, fun i => g (i + k)) ∧
      j0 < k ∧ r = g j0 % n ∧ r < n ∧
      (∀ j < k, error_de poblacio r ≤ error_de poblacio (g j % n)) ∧
      (∀ j < j0, error_de poblacio r < error_de poblacio (g j % n)) := by
  have hidx : g 0 % n < n := Nat.mod_lt _ hn
  obtain ⟨r, e, hr, h1, h2, h3⟩ :=
    tournament_loop_spec poblacio n hlen hn (k - 1) (g 0 % n) (fun i => g (i + 1)) hidx
  have hs : (fun i => (fun i => g (i + 1)) (i + (k - 1))) = fun i => g (i + k) := by
    funext i
    show g (i + (k - 1) + 1) = g (i + k)
    congr 1
    omega
  have hall : ∀ j < k, error_de poblacio r ≤ error_de poblacio (g j % n) := by
    intro j hj
    rcases j with _ | j
    · exact h1
    · exact h2 j (by omega)
  have hcall : tournament_selection poblacio n k g = some (r, fun i => g (i + k)) := by
    unfold tournament_selection
    rw [if_neg (by omega)]
    simp only [rand]
    rw [e, hs]
  rcases h3 with h3 | ⟨j0, hj0, e0, l0, a0⟩
  · exact ⟨r, 0, hcall, by omega, h3, hr, hall, fun j hj => absurd hj (Nat.not_lt_zero j)⟩
  · refine ⟨r, j0 + 1, hcall, by omega, e0, hr, hall, ?_⟩
    intro j hj
    rcases j with _ | j
    · exact l0
    · exact a0 j (by omega)

theorem tournament_selection_spec_witness :
    ∃ r j0, tournament_selection poblacio_exemple 4 3 (rand_de [4, 7, 5])
        = some (r, fun i => rand_de [4, 7, 5] (i + 3)) ∧
      j0 < 3 ∧ r = rand_de [4, 7, 5] j0 % 4 ∧ r < 4 ∧
      (∀ j < 3, error_de poblacio_exemple r
        ≤ error_de poblacio_exemple (rand_de [4, 7, 5] j % 4)) ∧
      (∀ j < j0, error_de poblacio_exemple r
        < error_de poblacio_exemple (rand_de [4, 7, 5] j % 4)) :=
  tournament_selection_spec poblacio_exemple 4 3 (rand_de [4, 7, 5]) (by decide) (by decide)
    (by decide)

/-- Invariant of the loop of `millor_cromosoma`: when `millor` is the first
index of least error among `0 .. i-1`, the remaining iterations `i .. n-1`
leave the first index of least error among `0 .. n-1`; every read is inside
the population. -/
theorem millor_cromosoma_loop_spec (poblacio : List Cromosoma) (n : Nat)
    (hlen : poblacio.length = n) :
    ∀ (m i millor : Nat), i + m = n → millor < i →
      (∀ j < i, error_de poblacio millor ≤ error_de poblacio j) →
      (∀ j < millor, error_de poblacio millor < error_de poblacio j) →
      ∃ r, millor_cromosoma_loop poblacio m i millor = some r ∧ r < n ∧
        (∀ j < n, error_de poblacio r ≤ error_de poblacio j) ∧
        (∀ j < r, error_de poblacio r < error_de poblacio j) := by
  intro m
  induction m with
  | zero =>
    intro i millor hi hm h1 h2
    have hin : i = n := by omega
    subst hin
    exact ⟨millor, rfl, hm, h1, h2⟩
  | succ m ih =>
    intro i millor hi hm h1 h2
    have hi2 : i < poblacio.length := by omega
    have hm2 : millor < poblacio.length := by omega
    rw [millor_cromosoma_loop, List.getElem?_eq_getElem hi2, List.getElem?_eq_getElem hm2]
    simp only
    rw [← error_de_eq_getElem poblacio hi2, ← error_de_eq_getElem poblacio hm2]
    by_cases c : error_de poblacio i < error_de poblacio millor
    · rw [if_pos c]
      apply ih (i + 1) i (by omega) (by omega)
      · intro j hj
        by_cases hji : j = i
        · rw [hji]
        · have := h1 j (by omega)
          omega
      · intro j hj
        have := h1 j hj
        omega
    · rw [if_neg c]
      apply ih (i + 1) millor (by omega) (by omega)
      · intro j hj
        by_cases hji : j = i
        · rw [hji]; omega
        · exact h1 j (by omega)
      · exact h2

/-- C10: for a population of size `n >= 1`, `millor_cromosoma` returns an
index in `[0, n)` whose error is at most the error of every individual, and
every smaller index has a strictly larger error: it is the smallest index of
least error. -/
theorem millor_cromosoma_spec (poblacio : List Cromosoma) (n : Nat)
    (hlen : poblacio.length = n) (hn : 1 ≤ n) :
    ∃ r, millor_cromosoma poblacio n = some r ∧ r < n ∧
      (∀ j < n, error_de poblacio r ≤ error_de poblacio j) ∧
      (∀ j < r, error_de poblacio r < error_de poblacio j) := by
  unfold millor_cromosoma
  apply millor_cromosoma_loop_spec poblacio n hlen (n - 1) 1 0 (by omega) (by omega)
  · intro j hj
    have : j = 0 := by omega
    rw [this]
  · intro j hj
    exact absurd hj (Nat.not_lt_zero j)

theorem millor_cromosoma_spec_witness :
    ∃ r, millor_cromosoma poblacio_exemple 4 = some r ∧ r < 4 ∧
      (∀ j < 4, error_de poblacio_exemple r ≤ error_de poblacio_exemple j) ∧
      (∀ j < r, error_de poblacio_exemple r < error_de poblacio_exemple j) :=
  millor_cromosoma_spec poblacio_exemple 4 (by decide) (by decide)

/-! ### The driver: initialisation and breeding -/

theorem calcula_error_nonneg {v : List Int} (hb : binari v) : 0 ≤ calcula_error v := by
  rw [calcula_error_eq hb]
  exact abs_nonneg _

theorem inicialitza_gens_valid :
    ∀ (m : Nat) (g : RandSrc),
      (inicialitza_gens m g).1.length = m ∧ binari (inicialitza_gens m g).1 := by
  intro m
  induction m with
  | zero =>
    intro g
    exact ⟨rfl, fun x hx => absurd hx (List.not_mem_nil x)⟩
  | succ m ih =>
    intro g
    obtain ⟨h1, h2⟩ := ih (rand g).2
    constructor
    · simp only [inicialitza_gens, List.length_cons, h1]
    · intro x hx
      simp only [inicialitza_gens, List.mem_cons] at hx
      rcases hx with hx | hx
      · rw [hx]
        have : (rand g).1 % 2 = 0 ∨ (rand g).1 % 2 = 1 := by omega
        rcases this with h | h <;> rw [h] <;> simp
      · exact h2 x hx

/-- The population `inicialitza_poblacio` builds has `n` individuals, each
with 30 binary genes and its error computed from them. -/
theorem inicialitza_poblacio_valida :
    ∀ (n : Nat) (g : RandSrc), poblacio_valida n (inicialitza_poblacio n g).1 := by
  intro n
  induction n with
  | zero =>
    intro g
    exact ⟨rfl, fun x hx => absurd hx (List.not_mem_nil x)⟩
  | succ n ih =>
    intro g
    obtain ⟨h1, h2⟩ := ih (inicialitza_gens NUM_GENS g).2
    obtain ⟨g1, g2⟩ := inicialitza_gens_valid NUM_GENS g
    constructor
    · simp only [inicialitza_poblacio, List.length_cons, h1]
    · intro c hc
      simp only [inicialitza_poblacio, List.mem_cons] at hc
      rcases hc with hc | hc
      · rw [hc]
        exact ⟨⟨g1, g2⟩, rfl⟩
      · exact h2 c hc

/-- On a population of `n >= 1` individuals `tournament_selection` returns
an index below `n`, whatever `k`. -/
theorem tournament_selection_some (poblacio : List Cromosoma) (n k : Nat) (g : RandSrc)
    (hlen : poblacio.length = n) (hn : 1 ≤ n) :
    ∃ r g1, tournament_selection poblacio n k g = some (r, g1) ∧ r < n := by
  obtain ⟨r, e, hr, _⟩ :=
    tournament_loop_spec poblacio n hlen hn (k - 1) (g 0 % n) (fun i => g (i + 1))
      (Nat.mod_lt _ hn)
  refine ⟨r, fun i => g (i + (k - 1) + 1), ?_, hr⟩
  unfold tournament_selection
  rw [if_neg (by omega)]
  simp only [rand]
  exact e

theorem length_range_map (f : Nat → Int) : ((List.range NUM_GENS).map f).length = 30 := by
  simp [NUM_GENS]

/-- Gene `j` of each child of `crossover` is gene `j` of one of the parents,
and the children have 30 genes. -/
theorem crossover_gens (p1 p2 : List Int) (f1 f2 : Nat → Int) (g : RandSrc)
    (h1 : p1.length = 30) (h2 : p2.length = 30) :
    (crossover p1 p2 ((List.range NUM_GENS).map f1) ((List.range NUM_GENS).map f2) g).1.1.length
      = 30 ∧
    (crossover p1 p2 ((List.range NUM_GENS).map f1) ((List.range NUM_GENS).map f2) g).1.2.length
      = 30 ∧
    ∀ j : Nat,
      ((crossover p1 p2 ((List.range NUM_GENS).map f1)
          ((List.range NUM_GENS).map f2) g).1.1[j]? = p1[j]? ∨
       (crossover p1 p2 ((List.range NUM_GENS).map f1)
          ((List.range NUM_GENS).map f2) g).1.1[j]? = p2[j]?) ∧
      ((crossover p1 p2 ((List.range NUM_GENS).map f1)
          ((List.range NUM_GENS).map f2) g).1.2[j]? = p1[j]? ∨
       (crossover p1 p2 ((List.range NUM_GENS).map f1)
          ((List.range NUM_GENS).map f2) g).1.2[j]? = p2[j]?) := by
  have hp := (punt_bounds (g 0)).2
  rw [show NUM_GENS - 1 = 29 from rfl] at hp
  have hc : g 0 % 29 + 1 ≤ 30 := by omega
  rw [crossover_eq p1 p2 _ _ g h1 h2 (length_range_map f1) (length_range_map f2)]
  simp only
  refine ⟨?_, ?_, ?_⟩
  · rw [List.length_append, List.length_take, List.length_drop]; omega
  · rw [List.length_append, List.length_take, List.length_drop]; omega
  · intro j
    rw [take_append_drop_getElem? p1 p2 (g 0 % 29 + 1) j h1 hc,
      take_append_drop_getElem? p2 p1 (g 0 % 29 + 1) j h2 hc]
    by_cases c : j < g 0 % 29 + 1
    · simp [c]
    · simp [c]

/-- A list whose every position holds what the same position of one of two
binary lists holds is binary. -/
theorem binari_of_getElem? {v p1 p2 : List Int} (hb1 : binari p1) (hb2 : binari p2)
    (h : ∀ j : Nat, v[j]? = p1[j]? ∨ v[j]? = p2[j]?) : binari v := by
  intro x hx
  obtain ⟨j, hj⟩ := List.mem_iff_getElem?.mp hx
  rcases h j with e | e
  · exact hb1 x (List.getElem?_mem (by rw [← e]; exact hj))
  · exact hb2 x (List.getElem?_mem (by rw [← e]; exact hj))

/-- The loop of `mutacio` keeps the length of the genome and keeps a binary
genome binary, whatever the probability and the draws. -/
theorem mutacio_loop_valid (RAND_MAX : Nat) (prob : ℚ) :
    ∀ (m i : Nat) (gens : List Int) (g : RandSrc), binari gens →
      (mutacio_loop RAND_MAX prob m i gens g).1.length = gens.length ∧
      binari (mutacio_loop RAND_MAX prob m i gens g).1 := by
  intro m
  induction m with
  | zero =>
    intro i gens g hb
    exact ⟨rfl, hb⟩
  | succ m ih =>
    intro i gens g hb
    rw [mutacio_loop]
    by_cases c : ((rand g).1 : ℚ) / (RAND_MAX : ℚ) < prob
    · rw [if_pos c]
      have hb2 : binari (gens.set i (wrap32 (1 - gens.getD i 0))) := by
        intro x hx
        rcases List.mem_or_eq_of_mem_set hx with hx | hx
        · exact hb x hx
        · rw [hx]
          rcases binari_getD hb i with h | h <;> rw [h] <;> decide
      obtain ⟨e1, e2⟩ := ih (i + 1) _ (rand g).2 hb2
      exact ⟨by rw [e1, List.length_set], e2⟩
    · rw [if_neg c]
      exact ih (i + 1) gens (rand g).2 hb

theorem mutacio_valid (RAND_MAX : Nat) (prob : ℚ) (gens : List Int) (g : RandSrc)
    (h : genoma_valid gens) : genoma_valid (mutacio RAND_MAX gens prob g).1 := by
  obtain ⟨e1, e2⟩ := mutacio_loop_valid RAND_MAX prob NUM_GENS 0 gens g h.2
  exact ⟨by unfold mutacio; rw [e1]; exact h.1, e2⟩

theorem cria_eq (RAND_MAX : Nat) (ind : Indeterminat) (poblacio : List Cromosoma)
    (n k : Nat) (pmut : ℚ) (g g1 g2 : RandSrc) (idx1 idx2 : Nat) (p1 p2 : Cromosoma)
    (e1 : tournament_selection poblacio n k g = some (idx1, g1))
    (e2 : tournament_selection poblacio n k g1 = some (idx2, g2))
    (e3 : poblacio[idx1]? = some p1) (e4 : poblacio[idx2]? = some p2) :
    cria RAND_MAX ind poblacio n k pmut g
      = some (muta_fills RAND_MAX pmut
          (crossover p1.gens p2.gens ((List.range NUM_GENS).map ind.fill1)
            ((List.range NUM_GENS).map ind.fill2) g2)) := by
  unfold cria
  rw [e1]
  simp only
  rw [e2]
  simp only
  rw [e3, e4]

/-- The two mutations keep two valid genomes valid; with `pmut = 0` they leave
both as they are. -/
theorem muta_fills_spec (RAND_MAX : Nat) (pmut : ℚ) (x : (List Int × List Int) × RandSrc)
    (h1 : genoma_valid x.1.1) (h2 : genoma_valid x.1.2) :
    genoma_valid (muta_fills RAND_MAX pmut x).1.1 ∧
    genoma_valid (muta_fills RAND_MAX pmut x).1.2 ∧
    (pmut = 0 → (muta_fills RAND_MAX pmut x).1 = x.1) := by
  refine ⟨mutacio_valid RAND_MAX pmut _ _ h1, mutacio_valid RAND_MAX pmut _ _ h2, ?_⟩
  intro h0
  subst h0
  unfold muta_fills mutacio
  rw [mutacio_loop_zero, mutacio_loop_zero]

/-- The breeding step on a valid population of `n >= 1` individuals: it
returns two children, each a valid genome; the parents are individuals of the
population, and when `pmut = 0` every gene of a child is the gene at the same
position of one of the two parents. -/
theorem cria_spec (RAND_MAX : Nat) (ind : Indeterminat) (poblacio : List Cromosoma)
    (n k : Nat) (pmut : ℚ) (hv : poblacio_valida n poblacio) (hn : 1 ≤ n) (g : RandSrc) :
    ∃ p1 p2 f g1, cria RAND_MAX ind poblacio n k pmut g = some (f, g1) ∧
      p1 ∈ poblacio ∧ p2 ∈ poblacio ∧ genoma_valid f.1 ∧ genoma_valid f.2 ∧
      (pmut = 0 → ∀ j : Nat,
        (f.1[j]? = p1.gens[j]? ∨ f.1[j]? = p2.gens[j]?) ∧
        (f.2[j]? = p1.gens[j]? ∨ f.2[j]? = p2.gens[j]?)) := by
  obtain ⟨hlen, hval⟩ := hv
  obtain ⟨idx1, g1, e1, hi1⟩ := tournament_selection_some poblacio n k g hlen hn
  obtain ⟨idx2, g2, e2, hi2⟩ := tournament_selection_some poblacio n k g1 hlen hn
  have hl1 : idx1 < poblacio.length := by omega
  have hl2 : idx2 < poblacio.length := by omega
  have m1 : poblacio[idx1] ∈ poblacio := List.getElem_mem hl1
  have m2 : poblacio[idx2] ∈ poblacio := List.getElem_mem hl2
  obtain ⟨⟨v1len, v1bin⟩, _⟩ := hval _ m1
  obtain ⟨⟨v2len, v2bin⟩, _⟩ := hval _ m2
  obtain ⟨c1len, c2len, cg⟩ :=
    crossover_gens poblacio[idx1].gens poblacio[idx2].gens ind.fill1 ind.fill2 g2 v1len v2len
  have b1 := binari_of_getElem? v1bin v2bin (fun j => (cg j).1)
  have b2 := binari_of_getElem? v1bin v2bin (fun j => (cg j).2)
  have hc := cria_eq RAND_MAX ind poblacio n k pmut g g1 g2 idx1 idx2 _ _ e1 e2
    (List.getElem?_eq_getElem hl1) (List.getElem?_eq_getElem hl2)
  obtain ⟨q1, q2, q3⟩ := muta_fills_spec RAND_MAX pmut
    (crossover poblacio[idx1].gens poblacio[idx2].gens ((List.range NUM_GENS).map ind.fill1)
      ((List.range NUM_GENS).map ind.fill2) g2) ⟨c1len, b1⟩ ⟨c2len, b2⟩
  generalize muta_fills RAND_MAX pmut
    (crossover poblacio[idx1].gens poblacio[idx2].gens ((List.range NUM_GENS).map ind.fill1)
      ((List.range NUM_GENS).map ind.fill2) g2) = mf at hc q1 q2 q3
  obtain ⟨f, g3⟩ := mf
  refine ⟨poblacio[idx1], poblacio[idx2], f, g3, hc, m1, m2, q1, q2, ?_⟩
  intro h0 j
  have e : f = _ := q3 h0
  rw [e]
  exact cg j

/-- On a valid population of `n >= 1` individuals, `m` successive breeding
steps return `m` pairs of children; every pair has the properties `cria_spec`
gives. -/
theorem cries_spec (RAND_MAX : Nat) (ind : Indeterminat) (poblacio : List Cromosoma)
    (n k : Nat) (pmut : ℚ) (hv : poblacio_valida n poblacio) (hn : 1 ≤ n) :
    ∀ (m : Nat) (g : RandSrc),
      ∃ fs g2, cries RAND_MAX ind poblacio n k pmut m g = some (fs, g2) ∧ fs.length = m ∧
        ∀ f ∈ fs, genoma_valid f.1 ∧ genoma_valid f.2 ∧
          (pmut = 0 → ∃ p1 ∈ poblacio, ∃ p2 ∈ poblacio, ∀ j : Nat,
            (f.1[j]? = p1.gens[j]? ∨ f.1[j]? = p2.gens[j]?) ∧
            (f.2[j]? = p1.gens[j]? ∨ f.2[j]? = p2.gens[j]?)) := by
  intro m
  induction m with
  | zero =>
    intro g
    exact ⟨[], g, rfl, rfl, fun f hf => absurd hf (List.not_mem_nil f)⟩
  | succ m ih =>
    intro g
    obtain ⟨p1, p2, f, g1, e, hp1, hp2, hf1, hf2, h0⟩ :=
      cria_spec RAND_MAX ind poblacio n k pmut hv hn g
    obtain ⟨fs, g2, e2, hl, hall⟩ := ih g1
    refine ⟨f :: fs, g2, ?_, by rw [List.length_cons, hl], ?_⟩
    · simp only [cries, e, e2]
    · intro f' hf'
      rcases List.mem_cons.mp hf' with h | h
      · rw [h]
        exact ⟨hf1, hf2, fun hz => ⟨p1, hp1, p2, hp2, h0 hz⟩⟩
      · exact hall f' h

/-! ### The driver: building a generation -/

theorem individu_de_cons_zero (f : List Int × List Int) (fs : List (List Int × List Int)) :
    individu_de (f :: fs) 0 = ⟨f.1, calcula_error f.1⟩ := rfl

theorem individu_de_cons_one (f : List Int × List Int) (fs : List (List Int × List Int)) :
    individu_de (f :: fs) 1 = ⟨f.2, calcula_error f.2⟩ := rfl

theorem individu_de_cons_add_two (f : List Int × List Int) (fs : List (List Int × List Int))
    (j : Nat) : individu_de (f :: fs) (j + 2) = individu_de fs j := by
  have h1 : (j + 2) / 2 = j / 2 + 1 := by omega
  have h2 : (j + 2) % 2 = j % 2 := by omega
  unfold individu_de
  rw [h1, h2, List.getD_cons_succ]

/-- Taking apart one more breeding step. -/
theorem cries_succ_eq (RAND_MAX : Nat) (ind : Indeterminat) (poblacio : List Cromosoma)
    (n k : Nat) (pmut : ℚ) (m : Nat) (g g2 : RandSrc) (fs : List (List Int × List Int))
    (h : cries RAND_MAX ind poblacio n k pmut (m + 1) g = some (fs, g2)) :
    ∃ f g1 fs1, cria RAND_MAX ind poblacio n k pmut g = some (f, g1) ∧
      cries RAND_MAX ind poblacio n k pmut m g1 = some (fs1, g2) ∧ fs = f :: fs1 := by
  rw [cries] at h
  cases hc : cria RAND_MAX ind poblacio n k pmut g with
  | none => rw [hc] at h; exact absurd h (by simp)
  | some x =>
    obtain ⟨f, g1⟩ := x
    rw [hc] at h
    simp only at h
    cases hr : cries RAND_MAX ind poblacio n k pmut m g1 with
    | none => rw [hr] at h; exact absurd h (by simp)
    | some y =>
      obtain ⟨fs1, g3⟩ := y
      rw [hr] at h
      simp only [Option.some.injEq, Prod.mk.injEq] at h
      exact ⟨f, g1, fs1, rfl, by rw [← h.2]; exact hr, h.1.symm⟩

/-- The generation-building loop from index `i`, for `m` iterations that stay
within `i + 2 m <= n + 1`: every write is inside the buffer, slot `j` of
`i .. min (i + 2 m, n) - 1` receives child `(j - i) mod 2` of pair
`(j - i) / 2` with its error computed, and the other slots keep what they
held. -/
theorem nova_generacio_loop_spec (RAND_MAX : Nat) (ind : Indeterminat)
    (poblacio : List Cromosoma) (n k : Nat) (pmut : ℚ) :
    ∀ (m i : Nat) (nova : List Cromosoma) (g g2 : RandSrc) (fs : List (List Int × List Int)),
      cries RAND_MAX ind poblacio n k pmut m g = some (fs, g2) →
      nova.length = n → i + 2 * m ≤ n + 1 →
      ∃ nova1, nova_generacio_loop RAND_MAX ind poblacio n k pmut m i nova g = some (nova1, g2) ∧
        nova1.length = n ∧
        ∀ j : Nat, nova1[j]? =
          if i ≤ j ∧ j < i + 2 * m ∧ j < n then some (individu_de fs (j - i)) else nova[j]? := by
  intro m
  induction m with
  | zero =>
    intro i nova g g2 fs hc hlen _
    simp only [cries, Option.some.injEq, Prod.mk.injEq] at hc
    refine ⟨nova, by rw [nova_generacio_loop, hc.2], hlen, ?_⟩
    intro j
    have h : ¬ (i ≤ j ∧ j < i + 2 * 0 ∧ j < n) := by omega
    rw [if_neg h]
  | succ m ih =>
    intro i nova g g2 fs hc hlen hi
    obtain ⟨f, g1, fs1, e1, e2, e3⟩ := cries_succ_eq RAND_MAX ind poblacio n k pmut m g g2 fs hc
    subst e3
    have hin : i < nova.length := by omega
    rw [nova_generacio_loop, e1]
    simp only [escriu, if_pos hin]
    by_cases h1 : i + 1 < n
    · have hin2 : i + 1 < (nova.set i ⟨f.1, calcula_error f.1⟩).length := by
        rw [List.length_set]; omega
      rw [if_pos h1, if_pos hin2]
      simp only
      obtain ⟨nova1, r1, r2, r3⟩ :=
        ih (i + 2) ((nova.set i ⟨f.1, calcula_error f.1⟩).set (i + 1) ⟨f.2, calcula_error f.2⟩)
          g1 g2 fs1 e2 (by rw [List.length_set, List.length_set]; exact hlen) (by omega)
      refine ⟨nova1, r1, r2, ?_⟩
      intro j
      rw [r3 j, List.getElem?_set, List.getElem?_set, List.length_set]
      by_cases c1 : i + 2 ≤ j ∧ j < i + 2 + 2 * m ∧ j < n
      · have c2 : i ≤ j ∧ j < i + 2 * (m + 1) ∧ j < n := by omega
        have e : j - i = (j - (i + 2)) + 2 := by omega
        rw [if_pos c1, if_pos c2, e, individu_de_cons_add_two]
      · rw [if_neg c1]
        by_cases c3 : i + 1 = j
        · have c2 : i ≤ j ∧ j < i + 2 * (m + 1) ∧ j < n := by omega
          have e : j - i = 1 := by omega
          rw [if_pos c3, if_pos (by omega), if_pos c2, e, individu_de_cons_one]
        · rw [if_neg c3]
          by_cases c4 : i = j
          · have c2 : i ≤ j ∧ j < i + 2 * (m + 1) ∧ j < n := by omega
            have e : j - i = 0 := by omega
            rw [if_pos c4, if_pos hin, if_pos c2, e, individu_de_cons_zero]
          · have c2 : ¬ (i ≤ j ∧ j < i + 2 * (m + 1) ∧ j < n) := by omega
            rw [if_neg c4, if_neg c2]
    · rw [if_neg h1]
      obtain ⟨nova1, r1, r2, r3⟩ :=
        ih (i + 2) (nova.set i ⟨f.1, calcula_error f.1⟩)
          g1 g2 fs1 e2 (by rw [List.length_set]; exact hlen) (by omega)
      refine ⟨nova1, r1, r2, ?_⟩
      intro j
      rw [r3 j, List.getElem?_set]
      have c1 : ¬ (i + 2 ≤ j ∧ j < i + 2 + 2 * m ∧ j < n) := by omega
      rw [if_neg c1]
      by_cases c4 : i = j
      · have c2 : i ≤ j ∧ j < i + 2 * (m + 1) ∧ j < n := by omega
        have e : j - i = 0 := by omega
        rw [if_pos c4, if_pos hin, if_pos c2, e, individu_de_cons_zero]
      · have c2 : ¬ (i ≤ j ∧ j < i + 2 * (m + 1) ∧ j < n) := by omega
        rw [if_neg c4, if_neg c2]

/-- The new generation in closed form: slot `j` of the buffer receives child
`j mod 2` of pair `j / 2`, for every `j < n`, whatever the buffer held. -/
theorem nova_generacio_eq (RAND_MAX : Nat) (ind : Indeterminat) (poblacio : List Cromosoma)
    (n k : Nat) (pmut : ℚ) (nova : List Cromosoma) (g g2 : RandSrc)
    (fs : List (List Int × List Int))
    (hc : cries RAND_MAX ind poblacio n k pmut ((n + 1) / 2) g = some (fs, g2))
    (hlen : nova.length = n) :
    nova_generacio RAND_MAX ind poblacio n k pmut nova g
      = some ((List.range n).map (individu_de fs), g2) := by
  obtain ⟨nova1, r1, r2, r3⟩ :=
    nova_generacio_loop_spec RAND_MAX ind poblacio n k pmut ((n + 1) / 2) 0 nova g g2 fs hc hlen
      (by omega)
  unfold nova_generacio
  rw [r1]
  congr 2
  apply List.ext_getElem?
  intro j
  rw [r3 j, List.getElem?_map]
  by_cases c : j < n
  · have c2 : 0 ≤ j ∧ j < 0 + 2 * ((n + 1) / 2) ∧ j < n := by omega
    rw [if_pos c2, List.getElem?_range c, Nat.sub_zero, Option.map_some']
  · have c2 : ¬ (0 ≤ j ∧ j < 0 + 2 * ((n + 1) / 2) ∧ j < n) := by omega
    rw [if_neg c2, List.getElem?_eq_none (by omega),
      List.getElem?_eq_none (by rw [List.length_range]; omega), Option.map_none']

theorem individu_de_mem (fs : List (List Int × List Int)) (j : Nat) (h : j / 2 < fs.length) :
    ∃ f ∈ fs, individu_de fs j = ⟨f.1, calcula_error f.1⟩ ∨
      individu_de fs j = ⟨f.2, calcula_error f.2⟩ := by
  refine ⟨fs[j / 2], List.getElem_mem h, ?_⟩
  unfold individu_de
  rw [List.getD_eq_getElem fs _ h]
  by_cases c : j % 2 = 0
  · left; rw [if_pos c]
  · right; rw [if_neg c]

/-- Building a generation from a valid population of `n >= 1` individuals
into any buffer of `n` slots: the loop returns, the new population is the
closed form over the `(n + 1) / 2` pairs bred, it is a valid population of `n`
individuals, and with `pmut = 0` every gene of a new individual is the gene at
the same position of an individual of the old population. -/
theorem nova_generacio_valida (RAND_MAX : Nat) (ind : Indeterminat)
    (poblacio : List Cromosoma) (n k : Nat) (pmut : ℚ) (hv : poblacio_valida n poblacio)
    (hn : 1 ≤ n) (nova : List Cromosoma) (hlen : nova.length = n) (g : RandSrc) :
    ∃ fs g2, cries RAND_MAX ind poblacio n k pmut ((n + 1) / 2) g = some (fs, g2) ∧
      fs.length = (n + 1) / 2 ∧
      nova_generacio RAND_MAX ind poblacio n k pmut nova g
        = some ((List.range n).map (individu_de fs), g2) ∧
      poblacio_valida n ((List.range n).map (individu_de fs)) ∧
      (pmut = 0 → ∀ c ∈ (List.range n).map (individu_de fs),
        ∃ p1 ∈ poblacio, ∃ p2 ∈ poblacio, ∀ j : Nat,
          c.gens[j]? = p1.gens[j]? ∨ c.gens[j]? = p2.gens[j]?) := by
  obtain ⟨fs, g2, e, hl, hall⟩ := cries_spec RAND_MAX ind poblacio n k pmut hv hn ((n + 1) / 2) g
  have hmem : ∀ c ∈ (List.range n).map (individu_de fs),
      ∃ f ∈ fs, c = ⟨f.1, calcula_error f.1⟩ ∨ c = ⟨f.2, calcula_error f.2⟩ := by
    intro c hc
    obtain ⟨j, hj, rfl⟩ := List.mem_map.mp hc
    have hj2 : j < n := List.mem_range.mp hj
    exact individu_de_mem fs j (by rw [hl]; omega)
  refine ⟨fs, g2, e, hl, nova_generacio_eq RAND_MAX ind poblacio n k pmut nova g g2 fs e hlen,
    ⟨by simp, ?_⟩, ?_⟩
  · intro c hc
    obtain ⟨f, hf, h | h⟩ := hmem c hc
    · rw [h]; exact ⟨(hall f hf).1, rfl⟩
    · rw [h]; exact ⟨(hall f hf).2.1, rfl⟩
  · intro h0 c hc
    obtain ⟨f, hf, h⟩ := hmem c hc
    obtain ⟨p1, hp1, p2, hp2, hg⟩ := (hall f hf).2.2 h0
    refine ⟨p1, hp1, p2, hp2, ?_⟩
    intro j
    rcases h with h | h
    · rw [h]; exact (hg j).1
    · rw [h]; exact (hg j).2

/-- On a population of `n >= 1` individuals `millor_cromosoma` returns an
index inside it; the individual there has the least error of the population. -/
theorem millor_cromosoma_min (P : List Cromosoma) (n : Nat) (hlen : P.length = n)
    (hn : 1 ≤ n) :
    ∃ idx c, millor_cromosoma P n = some idx ∧ idx < n ∧ P[idx]? = some c ∧ c ∈ P ∧
      ∀ d ∈ P, c.error ≤ d.error := by
  obtain ⟨r, e, hr, hmin, _⟩ :=
    millor_cromosoma_loop_spec P n hlen (n - 1) 1 0 (by omega) (by omega)
      (fun j hj => by
        have : j = 0 := by omega
        rw [this])
      (fun j hj => absurd hj (Nat.not_lt_zero j))
  have hr2 : r < P.length := by omega
  refine ⟨r, P[r], e, hr, List.getElem?_eq_getElem hr2, List.getElem_mem hr2, ?_⟩
  intro d hd
  obtain ⟨j, hj, rfl⟩ := List.mem_iff_getElem.mp hd
  have := hmin j (by omega)
  rw [error_de_eq_getElem P hr2, error_de_eq_getElem P hj] at this
  exact this

/-! ### The driver: the generation loop -/

theorem individu_error_nonneg {c : Cromosoma} (h : individu_valid c) : 0 ≤ c.error := by
  have e : c.error = calcula_error c.gens := h.2
  rw [e]
  exact calcula_error_nonneg h.1.2

theorem registra_avaluades (gen : Nat) (s : Estat) (c : Cromosoma) :
    (registra gen s c).avaluades = s.avaluades ++ [s.poblacio] := rfl

theorem registra_informes (gen : Nat) (s : Estat) (c : Cromosoma) :
    (registra gen s c).informes = s.informes ++ [⟨gen + 1, c.gens, c.error⟩] := rfl

theorem registra_millor (gen : Nat) (s : Estat) (c : Cromosoma) :
    (registra gen s c).millor_solucio
      = if c.error < s.millor_solucio.error then c else s.millor_solucio := rfl

theorem registra_generacio_millor (gen : Nat) (s : Estat) (c : Cromosoma) :
    (registra gen s c).generacio_millor
      = if c.error < s.millor_solucio.error then gen + 1 else s.generacio_millor := rfl

/-- The record after an update has an error no larger than before and no
larger than the error of the candidate. -/
theorem registra_millor_le (gen : Nat) (s : Estat) (c : Cromosoma) :
    (registra gen s c).millor_solucio.error ≤ s.millor_solucio.error ∧
    (registra gen s c).millor_solucio.error ≤ c.error := by
  rw [registra_millor]
  by_cases h : c.error < s.millor_solucio.error
  · rw [if_pos h]; omega
  · rw [if_neg h]; omega

theorem getElem?_append_singleton {α : Type} (l : List α) (a b : α) (j : Nat)
    (h : (l ++ [a])[j]? = some b) :
    (j < l.length ∧ l[j]? = some b) ∨ (j = l.length ∧ b = a) := by
  by_cases c : j < l.length
  · left
    rw [List.getElem?_append_left c] at h
    exact ⟨c, h⟩
  · right
    have hj : j < (l ++ [a]).length := by
      by_contra hn
      rw [List.getElem?_eq_none (Nat.le_of_not_lt hn)] at h
      exact absurd h (by simp)
    rw [List.length_append, List.length_singleton] at hj
    have e : j = l.length := by omega
    subst e
    rw [List.getElem?_concat_length] at h
    exact ⟨rfl, (Option.some.inj h).symm⟩

theorem getElem?_lt_of_some {α : Type} (l : List α) (j : Nat) (b : α) (h : l[j]? = some b) :
    j < l.length := by
  by_contra hn
  rw [List.getElem?_eq_none (Nat.le_of_not_lt hn)] at h
  exact absurd h (by simp)

/-- Reporting the best individual `c` of the current population and updating
the record keeps the invariant of the loop. -/
theorem registra_inv (n : Nat) (pob0 : List Cromosoma) (s : Estat) (c : Cromosoma)
    (hI : Inv n pob0 s) (hc : c ∈ s.poblacio) (hmin : ∀ d ∈ s.poblacio, c.error ≤ d.error) :
    Inv n pob0 (registra s.avaluades.length s c) := by
  obtain ⟨hle1, hle2⟩ := registra_millor_le s.avaluades.length s c
  refine ⟨hI.pob, hI.nova, ?_, ?_, ?_, ?_, ?_, ?_, ?_⟩
  · rw [registra_millor]
    by_cases h : c.error < s.millor_solucio.error
    · rw [if_pos h]; exact hI.pob.2 c hc
    · rw [if_neg h]; exact hI.millor
  · intro P hP
    rw [registra_avaluades] at hP
    rcases List.mem_append.mp hP with h | h
    · exact hI.aval P h
    · rw [List.mem_singleton.mp h]; exact hI.pob
  · intro j r hr
    rw [registra_informes] at hr
    rw [registra_avaluades]
    rcases getElem?_append_singleton _ _ _ _ hr with ⟨hj, h⟩ | ⟨hj, h⟩
    · obtain ⟨h1, P, h2, h3⟩ := hI.inf j r h
      refine ⟨h1, P, ?_, h3⟩
      rw [List.getElem?_append_left (getElem?_lt_of_some _ _ _ h2)]
      exact h2
    · rw [h, hj, hI.inf_len]
      refine ⟨rfl, s.poblacio, List.getElem?_concat_length _ _, ⟨c, hc, rfl, rfl⟩, hmin⟩
  · rw [registra_informes, registra_avaluades, List.length_append, List.length_append,
      hI.inf_len]
    rfl
  · intro P hP d hd
    rw [registra_avaluades] at hP
    rcases List.mem_cons.mp hP with h | h
    · have := hI.minim P (by rw [h]; exact List.mem_cons_self _ _) d hd
      omega
    · rcases List.mem_append.mp h with h | h
      · have := hI.minim P (List.mem_cons_of_mem _ h) d hd
        omega
      · rw [List.mem_singleton.mp h] at hd
        have := hmin d hd
        omega
  · intro h
    rw [registra_avaluades] at h
    exact absurd h (by simp)
  · intro _
    rw [registra_avaluades, registra_generacio_millor, registra_millor, List.length_append,
      List.length_singleton]
    have hhead : (s.avaluades ++ [s.poblacio]).head? = some pob0 := by
      by_cases he : s.avaluades = []
      · rw [he, (hI.abans he).1]; rfl
      · rw [List.head?_append_of_ne_nil _ he]
        exact (hI.primera he).1
    refine ⟨hhead, ?_⟩
    by_cases h : c.error < s.millor_solucio.error
    · rw [if_pos h, if_pos h]
      refine ⟨by omega, by omega, ⟨s.poblacio, ?_, hc⟩, ?_⟩
      · rw [Nat.add_sub_cancel]; exact List.getElem?_concat_length _ _
      · intro j hj P hP d hd
        rw [Nat.add_sub_cancel] at hj
        rw [List.getElem?_append_left hj] at hP
        have := hI.minim P (List.mem_cons_of_mem _ (List.getElem?_mem hP)) d hd
        omega
    · rw [if_neg h, if_neg h]
      by_cases he : s.avaluades = []
      · obtain ⟨a1, a2, a3⟩ := hI.abans he
        rw [a3, he]
        refine ⟨by omega, by simp, ⟨s.poblacio, by simp, by rw [a1]; exact a2⟩, ?_⟩
        intro j hj
        omega
      · obtain ⟨_, b1, b2, ⟨P, b3, b4⟩, b5⟩ := hI.primera he
        refine ⟨b1, by omega, ⟨P, ?_, b4⟩, ?_⟩
        · rw [List.getElem?_append_left (by omega)]; exact b3
        · intro j hj Q hQ d hd
          rw [List.getElem?_append_left (by omega)] at hQ
          exact b5 j hj Q hQ d hd


/-- One iteration of the generation loop from a state that satisfies the
invariant and in which no examined population holds an error 0: the iteration
returns, the invariant holds afterwards, the current population has been
examined, the record did not get worse; the loop is left exactly when the
current population holds an individual of error 0, and then no generation is
built; otherwise the new population comes from the old one. -/
theorem main_iteracio_spec (RAND_MAX : Nat) (ind : Indeterminat) (n k : Nat) (pmut : ℚ)
    (pob0 : List Cromosoma) (s : Estat) (hn : 1 ≤ n) (hI : Inv n pob0 s) (hz : sense_zero s) :
    ∃ b s1, main_iteracio RAND_MAX ind n k pmut s.avaluades.length s = some (b, s1) ∧
      Inv n pob0 s1 ∧ s1.avaluades = s.avaluades ++ [s.poblacio] ∧
      s1.millor_solucio.error ≤ s.millor_solucio.error ∧
      (b = true → s1.millor_solucio.error = 0 ∧ s1.poblacio = s.poblacio ∧
        ∃ c ∈ s.poblacio, c.error = 0) ∧
      (b = false → sense_zero s1 ∧
        (pmut = 0 → ∀ c ∈ s1.poblacio, ∃ p1 ∈ s.poblacio, ∃ p2 ∈ s.poblacio, ∀ j : Nat,
          c.gens[j]? = p1.gens[j]? ∨ c.gens[j]? = p2.gens[j]?)) := by
  obtain ⟨idx, c, em, _, ec, hcmem, hcmin⟩ := millor_cromosoma_min s.poblacio n hI.pob.1 hn
  have hI1 := registra_inv n pob0 s c hI hcmem hcmin
  obtain ⟨hle1, hle2⟩ := registra_millor_le s.avaluades.length s c
  unfold main_iteracio
  rw [em]
  simp only
  rw [ec]
  simp only
  by_cases h0 : (registra s.avaluades.length s c).millor_solucio.error = 0
  · rw [if_pos h0]
    refine ⟨true, registra s.avaluades.length s c, rfl, hI1, rfl, hle1, ?_, ?_⟩
    · intro _
      refine ⟨h0, rfl, ?_⟩
      rw [registra_millor] at h0
      by_cases hlt : c.error < s.millor_solucio.error
      · rw [if_pos hlt] at h0
        exact ⟨c, hcmem, h0⟩
      · rw [if_neg hlt] at h0
        by_cases he : s.avaluades = []
        · obtain ⟨a1, a2, _⟩ := hI.abans he
          exact ⟨s.millor_solucio, by rw [a1]; exact a2, h0⟩
        · obtain ⟨_, _, _, ⟨P, b3, b4⟩, _⟩ := hI.primera he
          exact absurd h0 (hz P (List.getElem?_mem b3) _ b4)
    · intro hb
      exact absurd hb (by simp)
  · rw [if_neg h0]
    obtain ⟨fs, g2, _, _, eg, hv, horig⟩ :=
      nova_generacio_valida RAND_MAX ind s.poblacio n k pmut hI.pob hn s.nova_pob hI.nova s.rng
    rw [eg]
    simp only
    refine ⟨false, _, rfl, ?_, rfl, hle1, ?_, ?_⟩
    · exact ⟨hv, hI.pob.1, hI1.millor, hI1.aval, hI1.inf, hI1.inf_len, hI1.minim,
        fun h => absurd h (by rw [registra_avaluades]; simp), hI1.primera⟩
    · intro hb
      exact absurd hb (by simp)
    · intro _
      refine ⟨?_, horig⟩
      intro P hP d hd
      have hP2 : P ∈ s.avaluades ++ [s.poblacio] := hP
      rcases List.mem_append.mp hP2 with h | h
      · exact hz P h d hd
      · rw [List.mem_singleton.mp h] at hd
        have h1 := hcmin d hd
        have h2 := individu_error_nonneg hI1.millor
        omega

/-- Examining the current population and then keeping it or replacing it by
one that inherits its shared genes keeps `hereta`. -/
theorem hereta_step (s s1 : Estat) (h : hereta s)
    (ha : s1.avaluades = s.avaluades ++ [s.poblacio])
    (hp : ∀ (j : Nat) (b : Int), fixat j b s.poblacio → fixat j b s1.poblacio) : hereta s1 := by
  intro j b i P hP hfix
  rw [ha] at hP
  have hcur : fixat j b s.poblacio := by
    rcases getElem?_append_singleton _ _ _ _ hP with ⟨_, h1⟩ | ⟨_, h1⟩
    · exact (h j b i P h1 hfix).2
    · rw [← h1]; exact hfix
  refine ⟨?_, hp j b hcur⟩
  intro i1 P1 hi hP1
  rw [ha] at hP1
  rcases getElem?_append_singleton _ _ _ _ hP1 with ⟨h2, h3⟩ | ⟨_, h3⟩
  · rcases getElem?_append_singleton _ _ _ _ hP with ⟨_, h1⟩ | ⟨h4, _⟩
    · exact (h j b i P h1 hfix).1 i1 P1 hi h3
    · omega
  · rw [h3]; exact hcur

/-- A population whose genes all come, position by position, from the
individuals of another inherits the genes the other shares. -/
theorem fixat_of_origen (P Q : List Cromosoma)
    (h : ∀ c ∈ Q, ∃ p1 ∈ P, ∃ p2 ∈ P, ∀ j : Nat,
      c.gens[j]? = p1.gens[j]? ∨ c.gens[j]? = p2.gens[j]?)
    (j : Nat) (b : Int) (hf : fixat j b P) : fixat j b Q := by
  intro c hc
  obtain ⟨p1, hp1, p2, hp2, hg⟩ := h c hc
  rcases hg j with e | e
  · rw [e]; exact hf p1 hp1
  · rw [e]; exact hf p2 hp2

/-- The generation loop, for `m` iterations from a state that satisfies the
invariant: it returns a state that satisfies the invariant and `Final`; the
record did not get worse. -/
theorem main_loop_spec (RAND_MAX : Nat) (ind : Indeterminat) (n k : Nat) (pmut : ℚ)
    (pob0 : List Cromosoma) (hn : 1 ≤ n) :
    ∀ (m : Nat) (s : Estat), Inv n pob0 s → sense_zero s → (pmut = 0 → hereta s) →
      ∃ s1, main_loop RAND_MAX ind n k pmut m s.avaluades.length s = some s1 ∧
        Inv n pob0 s1 ∧ Final (s.avaluades.length + m) s1 ∧
        s1.millor_solucio.error ≤ s.millor_solucio.error ∧ (pmut = 0 → hereta s1) := by
  intro m
  induction m with
  | zero =>
    intro s hI hz hh
    exact ⟨s, rfl, hI, Or.inl ⟨rfl, hz⟩, le_refl _, hh⟩
  | succ m ih =>
    intro s hI hz hh
    obtain ⟨b, s1, e, hI1, ha, hle, hbt, hbf⟩ :=
      main_iteracio_spec RAND_MAX ind n k pmut pob0 s hn hI hz
    have hlen : s1.avaluades.length = s.avaluades.length + 1 := by
      rw [ha, List.length_append, List.length_singleton]
    rw [main_loop, e]
    cases b with
    | true =>
      obtain ⟨t1, t2, t3⟩ := hbt rfl
      refine ⟨s1, rfl, hI1, Or.inr ⟨by omega, by omega, t1, ?_, by rw [t2]; exact t3, ?_⟩, hle, ?_⟩
      · rw [hlen, Nat.add_sub_cancel, t2, ha]
        exact List.getElem?_concat_length _ _
      · intro j hj P hP c hc
        rw [hlen, Nat.add_sub_cancel] at hj
        rw [ha, List.getElem?_append_left hj] at hP
        exact hz P (List.getElem?_mem hP) c hc
      · intro h0
        exact hereta_step s s1 (hh h0) ha (fun j b hf => by rw [t2]; exact hf)
    | false =>
      obtain ⟨f1, f2⟩ := hbf rfl
      simp only
      have hh1 : pmut = 0 → hereta s1 := fun h0 =>
        hereta_step s s1 (hh h0) ha (fun j b hf => fixat_of_origen _ _ (f2 h0) j b hf)
      obtain ⟨s2, e2, hI2, hF2, hle2, hh2⟩ := ih s1 hI1 f1 hh1
      rw [hlen] at e2 hF2
      refine ⟨s2, e2, hI2, ?_, by omega, hh2⟩
      have : s.avaluades.length + (m + 1) = s.avaluades.length + 1 + m := by omega
      rw [this]
      exact hF2

/-- The state in which the loop is entered, for `n >= 1`: it exists (the read
of the best initial individual is inside the population) and satisfies the
invariant, with the population of `inicialitza_poblacio` as `pob0`. -/
theorem estat_inicial_spec (ind : Indeterminat) (n : Nat) (g : RandSrc) (hn : 1 ≤ n) :
    ∃ s0, estat_inicial ind n g = some s0 ∧ Inv n (inicialitza_poblacio n g).1 s0 ∧
      sense_zero s0 ∧ hereta s0 ∧ s0.avaluades = [] ∧
      s0.poblacio = (inicialitza_poblacio n g).1 := by
  have hv := inicialitza_poblacio_valida n g
  obtain ⟨idx, c, em, _, ec, hcmem, hcmin⟩ :=
    millor_cromosoma_min (inicialitza_poblacio n g).1 n hv.1 hn
  unfold estat_inicial
  rw [em]
  simp only
  rw [ec]
  simp only
  refine ⟨_, rfl, ?_, ?_, ?_, rfl, rfl⟩
  · refine ⟨hv, by simp, hv.2 c hcmem, ?_, ?_, rfl, ?_, fun _ => ⟨rfl, hcmem, rfl⟩,
      fun h => absurd rfl h⟩
    · intro P hP
      exact absurd hP (List.not_mem_nil P)
    · intro j r hr
      exact absurd hr (by simp)
    · intro P hP d hd
      rcases List.mem_cons.mp hP with h | h
      · rw [h] at hd; exact hcmin d hd
      · exact absurd h (List.not_mem_nil P)
  · intro P hP
    exact absurd hP (List.not_mem_nil P)
  · intro j b i P hP
    exact absurd hP (by simp)

/-- The run of `main` for a population size `n >= 1`, whatever the other
parameters: the initial state exists, the run returns a final state, and the
final state satisfies the invariant and `Final` for the generation budget. -/
theorem executa_spec (RAND_MAX : Nat) (ind : Indeterminat) (p : Params) (g : RandSrc)
    (hn : 1 ≤ p.n) :
    ∃ s0 s, estat_inicial ind p.n.toNat g = some s0 ∧ s0.avaluades = [] ∧
      s0.poblacio = (inicialitza_poblacio p.n.toNat g).1 ∧
      Inv p.n.toNat (inicialitza_poblacio p.n.toNat g).1 s0 ∧
      executa RAND_MAX ind p g = some s ∧
      Inv p.n.toNat (inicialitza_poblacio p.n.toNat g).1 s ∧
      Final p.generacions.toNat s ∧
      s.millor_solucio.error ≤ s0.millor_solucio.error ∧ (p.pmut = 0 → hereta s) := by
  have hn2 : 1 ≤ p.n.toNat := by omega
  obtain ⟨s0, e0, hI0, hz0, hh0, ha0, hp0⟩ := estat_inicial_spec ind p.n.toNat g hn2
  obtain ⟨s, e, hI, hF, hle, hh⟩ :=
    main_loop_spec RAND_MAX ind p.n.toNat p.k.toNat p.pmut (inicialitza_poblacio p.n.toNat g).1
      hn2 p.generacions.toNat s0 hI0 hz0 (fun _ => hh0)
  rw [ha0] at e hF
  rw [List.length_nil] at e
  rw [List.length_nil, Nat.zero_add] at hF
  refine ⟨s0, s, e0, ha0, hp0, hI0, ?_, hI, hF, hle, hh⟩
  unfold executa
  rw [e0]
  exact e

/-! ### The driver: the contract -/

/-- C11: for every configuration with `n >= 1`, every generation budget and
every random stream, the run returns, and the initial population, every
population the loop has examined and the population held at the end (the one
after the last replacement) contain exactly `n` individuals, each with a
cached error equal to `calcula_error` of its own genome. -/
theorem cache_coherence (RAND_MAX : Nat) (ind : Indeterminat) (p : Params) (g : RandSrc)
    (hn : 1 ≤ p.n) :
    ∃ s, executa RAND_MAX ind p g = some s ∧
      ((inicialitza_poblacio p.n.toNat g).1.length = p.n.toNat ∧
        ∀ c ∈ (inicialitza_poblacio p.n.toNat g).1, c.error = calcula_error c.gens) ∧
      (s.poblacio.length = p.n.toNat ∧ ∀ c ∈ s.poblacio, c.error = calcula_error c.gens) ∧
      ∀ P ∈ s.avaluades, P.length = p.n.toNat ∧ ∀ c ∈ P, c.error = calcula_error c.gens := by
  obtain ⟨s0, s, _, _, _, hI0, e, hI, _, _, _⟩ := executa_spec RAND_MAX ind p g hn
  have hv := inicialitza_poblacio_valida p.n.toNat g
  refine ⟨s, e, ⟨hv.1, fun c hc => (hv.2 c hc).2⟩, ⟨hI.pob.1, fun c hc => (hI.pob.2 c hc).2⟩, ?_⟩
  intro P hP
  exact ⟨(hI.aval P hP).1, fun c hc => ((hI.aval P hP).2 c hc).2⟩

theorem cache_coherence_witness :
    ∃ s, executa 32767 ind_exemple params_exemple (rand_de [1, 0, 1]) = some s ∧
      s.poblacio.length = 3 ∧ ∀ c ∈ s.poblacio, c.error = calcula_error c.gens := by
  obtain ⟨s, e, _, h, _⟩ :=
    cache_coherence 32767 ind_exemple params_exemple (rand_de [1, 0, 1]) (by decide)
  exact ⟨s, e, h⟩

/-- One iteration of the generation loop either keeps the best-so-far record
and its generation, or replaces the record by an individual of the current
population of strictly lower error and sets the generation to `gen + 1`. -/
theorem main_iteracio_record (RAND_MAX : Nat) (ind : Indeterminat) (n k : Nat) (pmut : ℚ)
    (gen : Nat) (s s1 : Estat) (b : Bool)
    (h : main_iteracio RAND_MAX ind n k pmut gen s = some (b, s1)) :
    (s1.millor_solucio = s.millor_solucio ∧ s1.generacio_millor = s.generacio_millor) ∨
    (s1.millor_solucio.error < s.millor_solucio.error ∧ s1.millor_solucio ∈ s.poblacio ∧
      s1.generacio_millor = gen + 1 ∧
      ∃ idx, millor_cromosoma s.poblacio n = some idx ∧
        s.poblacio[idx]? = some s1.millor_solucio) := by
  unfold main_iteracio at h
  cases hm : millor_cromosoma s.poblacio n with
  | none => rw [hm] at h; exact absurd h (by simp)
  | some idx =>
    rw [hm] at h
    simp only at h
    cases hc : s.poblacio[idx]? with
    | none => rw [hc] at h; exact absurd h (by simp)
    | some c =>
      rw [hc] at h
      simp only at h
      have key : ((registra gen s c).millor_solucio = s.millor_solucio ∧
            (registra gen s c).generacio_millor = s.generacio_millor) ∨
          ((registra gen s c).millor_solucio.error < s.millor_solucio.error ∧
            (registra gen s c).millor_solucio ∈ s.poblacio ∧
            (registra gen s c).generacio_millor = gen + 1 ∧
            ∃ idx, millor_cromosoma s.poblacio n = some idx ∧
              s.poblacio[idx]? = some (registra gen s c).millor_solucio) := by
        rw [registra_millor, registra_generacio_millor]
        by_cases hlt : c.error < s.millor_solucio.error
        · right
          rw [if_pos hlt, if_pos hlt]
          exact ⟨hlt, List.getElem?_mem hc, rfl, idx, hm, hc⟩
        · left
          rw [if_neg hlt, if_neg hlt]
          exact ⟨rfl, rfl⟩
      rw [hm] at key
      by_cases h0 : (registra gen s c).millor_solucio.error = 0
      · rw [if_pos h0] at h
        simp only [Option.some.injEq, Prod.mk.injEq] at h
        rw [← h.2]
        exact key
      · rw [if_neg h0] at h
        cases hg : nova_generacio RAND_MAX ind s.poblacio n k pmut s.nova_pob s.rng with
        | none => rw [hg] at h; exact absurd h (by simp)
        | some x =>
          rw [hg] at h
          simp only [Option.some.injEq, Prod.mk.injEq] at h
          rw [← h.2]
          exact key

/-- C12: for `n >= 1` and every generation budget, at the end of the run the
error of the best-so-far record is the least error over all individuals of all
populations examined (so the least of their minimum errors), it is attained in
one of them, and the record is coherent; when no generation was examined the
record is the best of the initial population. Every iteration of the loop
either keeps the record or replaces it by the best individual of the current
population, and this only when its error is strictly lower. -/
theorem millor_solucio_minim (RAND_MAX : Nat) (ind : Indeterminat) (p : Params) (g : RandSrc)
    (hn : 1 ≤ p.n) :
    (∃ s, executa RAND_MAX ind p g = some s ∧
      s.informes.length = s.avaluades.length ∧
      s.millor_solucio.error = calcula_error s.millor_solucio.gens ∧
      (∀ P ∈ s.avaluades, ∀ c ∈ P, s.millor_solucio.error ≤ c.error) ∧
      (s.avaluades ≠ [] → ∃ P ∈ s.avaluades, s.millor_solucio ∈ P) ∧
      (s.avaluades = [] → s.millor_solucio ∈ (inicialitza_poblacio p.n.toNat g).1) ∧
      (∀ c ∈ (inicialitza_poblacio p.n.toNat g).1, s.millor_solucio.error ≤ c.error)) ∧
    ∀ (gen : Nat) (s s1 : Estat) (b : Bool),
      main_iteracio RAND_MAX ind p.n.toNat p.k.toNat p.pmut gen s = some (b, s1) →
      s1.millor_solucio.error ≤ s.millor_solucio.error ∧
      (s1.millor_solucio ≠ s.millor_solucio →
        s1.millor_solucio.error < s.millor_solucio.error ∧
        ∃ idx, millor_cromosoma s.poblacio p.n.toNat = some idx ∧
          s.poblacio[idx]? = some s1.millor_solucio) := by
  constructor
  · obtain ⟨s0, s, _, _, _, _, e, hI, _, _, _⟩ := executa_spec RAND_MAX ind p g hn
    refine ⟨s, e, hI.inf_len, hI.millor.2, ?_, ?_, ?_, ?_⟩
    · intro P hP c hc
      exact hI.minim P (List.mem_cons_of_mem _ hP) c hc
    · intro hne
      obtain ⟨_, _, _, ⟨P, h1, h2⟩, _⟩ := hI.primera hne
      exact ⟨P, List.getElem?_mem h1, h2⟩
    · intro he
      exact (hI.abans he).2.1
    · intro c hc
      exact hI.minim _ (List.mem_cons_self _ _) c hc
  · intro gen s s1 b h
    rcases main_iteracio_record RAND_MAX ind _ _ _ gen s s1 b h with ⟨h1, _⟩ | ⟨h1, _, _, h2⟩
    · rw [h1]
      exact ⟨le_refl _, fun hne => absurd rfl hne⟩
    · exact ⟨by omega, fun _ => ⟨h1, h2⟩⟩

theorem millor_solucio_minim_witness :
    ∃ s, executa 32767 ind_exemple params_exemple (rand_de [1, 0, 1]) = some s ∧
      ∀ P ∈ s.avaluades, ∀ c ∈ P, s.millor_solucio.error ≤ c.error := by
  obtain ⟨⟨s, e, _, _, h, _⟩, _⟩ :=
    millor_solucio_minim 32767 ind_exemple params_exemple (rand_de [1, 0, 1]) (by decide)
  exact ⟨s, e, h⟩

/-- C13: for `n >= 1`, the generation reported with the best-so-far record is
the 1-based index of the first examined population whose least error is the
final best error: the record is an individual of that population, no
individual of it has a lower error, and every individual of every earlier
population has a strictly larger error. The first examined population is
the initial one, and the reported generation is 1 when the initial population
holds an individual with the final best error (also when no generation is
run). -/
theorem generacio_millor_primera (RAND_MAX : Nat) (ind : Indeterminat) (p : Params)
    (g : RandSrc) (hn : 1 ≤ p.n) :
    ∃ s, executa RAND_MAX ind p g = some s ∧
      (s.avaluades = [] → s.generacio_millor = 1 ∧
        s.millor_solucio ∈ (inicialitza_poblacio p.n.toNat g).1) ∧
      (s.avaluades ≠ [] →
        s.avaluades[0]? = some (inicialitza_poblacio p.n.toNat g).1 ∧
        1 ≤ s.generacio_millor ∧ s.generacio_millor ≤ s.avaluades.length ∧
        (∃ P, s.avaluades[s.generacio_millor - 1]? = some P ∧ s.millor_solucio ∈ P ∧
          ∀ c ∈ P, s.millor_solucio.error ≤ c.error) ∧
        (∀ j < s.generacio_millor - 1, ∀ P, s.avaluades[j]? = some P →
          ∀ c ∈ P, s.millor_solucio.error < c.error)) ∧
      ((∃ c ∈ (inicialitza_poblacio p.n.toNat g).1, c.error = s.millor_solucio.error) →
        s.generacio_millor = 1) := by
  obtain ⟨s0, s, _, _, _, _, e, hI, _, _, _⟩ := executa_spec RAND_MAX ind p g hn
  have hcase : s.avaluades ≠ [] →
      s.avaluades[0]? = some (inicialitza_poblacio p.n.toNat g).1 ∧
      1 ≤ s.generacio_millor ∧ s.generacio_millor ≤ s.avaluades.length ∧
      (∃ P, s.avaluades[s.generacio_millor - 1]? = some P ∧ s.millor_solucio ∈ P ∧
        ∀ c ∈ P, s.millor_solucio.error ≤ c.error) ∧
      (∀ j < s.generacio_millor - 1, ∀ P, s.avaluades[j]? = some P →
        ∀ c ∈ P, s.millor_solucio.error < c.error) := by
    intro hne
    obtain ⟨b0, b1, b2, ⟨P, b3, b4⟩, b5⟩ := hI.primera hne
    refine ⟨by rw [← List.head?_eq_getElem?]; exact b0, b1, b2, ⟨P, b3, b4, ?_⟩, b5⟩
    intro c hc
    exact hI.minim P (List.mem_cons_of_mem _ (List.getElem?_mem b3)) c hc
  refine ⟨s, e, fun he => ⟨(hI.abans he).2.2, (hI.abans he).2.1⟩, hcase, ?_⟩
  rintro ⟨c, hc, hce⟩
  by_cases he : s.avaluades = []
  · exact (hI.abans he).2.2
  · obtain ⟨a0, a1, _, _, a5⟩ := hcase he
    by_contra hne
    have := a5 0 (by omega) _ a0 c hc
    omega

theorem generacio_millor_primera_witness :
    ∃ s, executa 32767 ind_exemple params_exemple (rand_de [1, 0, 1]) = some s ∧
      ((∃ c ∈ (inicialitza_poblacio params_exemple.n.toNat (rand_de [1, 0, 1])).1,
          c.error = s.millor_solucio.error) → s.generacio_millor = 1) := by
  obtain ⟨s, e, _, _, h⟩ :=
    generacio_millor_primera 32767 ind_exemple params_exemple (rand_de [1, 0, 1]) (by decide)
  exact ⟨s, e, h⟩

/-- C14: for `n >= 1` and `generacions >= 1` the run returns, and it reports
`G` generations, numbered `1 .. G`, one for each population examined. Either
`G = generacions` and no examined population holds an individual of error 0;
or `G <= generacions`, population `G` is the first examined population that
holds an individual of error 0, it is still the current population (no
further generation is built) and the best-so-far error is 0. When the initial
population holds an individual of error 0, `G = 1`. -/
theorem main_termina (RAND_MAX : Nat) (ind : Indeterminat) (p : Params) (g : RandSrc)
    (hn : 1 ≤ p.n) (hg : 1 ≤ p.generacions) :
    ∃ s, executa RAND_MAX ind p g = some s ∧
      s.informes.length = s.avaluades.length ∧
      (∀ (j : Nat) (r : Informe), s.informes[j]? = some r → r.generacio = j + 1) ∧
      s.avaluades[0]? = some (inicialitza_poblacio p.n.toNat g).1 ∧
      (((s.informes.length : Int) = p.generacions ∧
          ∀ P ∈ s.avaluades, ∀ c ∈ P, c.error ≠ 0) ∨
        (1 ≤ s.informes.length ∧ (s.informes.length : Int) ≤ p.generacions ∧
          s.avaluades[s.informes.length - 1]? = some s.poblacio ∧
          (∃ c ∈ s.poblacio, c.error = 0) ∧
          (∀ j < s.informes.length - 1, ∀ P, s.avaluades[j]? = some P →
            ∀ c ∈ P, c.error ≠ 0) ∧
          s.millor_solucio.error = 0)) ∧
      ((∃ c ∈ (inicialitza_poblacio p.n.toNat g).1, c.error = 0) →
        s.informes.length = 1 ∧ s.millor_solucio.error = 0) := by
  obtain ⟨s0, s, _, _, _, _, e, hI, hF, _, _⟩ := executa_spec RAND_MAX ind p g hn
  have hlen := hI.inf_len
  have hne : s.avaluades ≠ [] := by
    intro he
    rcases hF with ⟨h1, _⟩ | ⟨h1, _⟩
    · rw [he, List.length_nil] at h1; omega
    · rw [he, List.length_nil] at h1; omega
  have h0 : s.avaluades[0]? = some (inicialitza_poblacio p.n.toNat g).1 := by
    rw [← List.head?_eq_getElem?]; exact (hI.primera hne).1
  have hdisj : ((s.informes.length : Int) = p.generacions ∧
        ∀ P ∈ s.avaluades, ∀ c ∈ P, c.error ≠ 0) ∨
      (1 ≤ s.informes.length ∧ (s.informes.length : Int) ≤ p.generacions ∧
        s.avaluades[s.informes.length - 1]? = some s.poblacio ∧
        (∃ c ∈ s.poblacio, c.error = 0) ∧
        (∀ j < s.informes.length - 1, ∀ P, s.avaluades[j]? = some P →
          ∀ c ∈ P, c.error ≠ 0) ∧
        s.millor_solucio.error = 0) := by
    rcases hF with ⟨h1, h2⟩ | ⟨h1, h2, h3, h4, h5, h6⟩
    · left
      exact ⟨by omega, h2⟩
    · right
      rw [hlen]
      exact ⟨h1, by omega, h4, h5, h6, h3⟩
  refine ⟨s, e, hlen, fun j r hr => (hI.inf j r hr).1, h0, hdisj, ?_⟩
  rintro ⟨c, hc, hc0⟩
  rcases hdisj with ⟨_, h2⟩ | ⟨h1, _, _, _, h5, h6⟩
  · exact absurd hc0 (h2 _ (List.getElem?_mem h0) c hc)
  · refine ⟨?_, h6⟩
    by_contra hne1
    exact absurd hc0 (h5 0 (by omega) _ h0 c hc)

theorem main_termina_witness :
    ∃ s, executa 32767 ind_exemple params_exemple (rand_de [1, 0, 1]) = some s ∧
      s.informes.length = s.avaluades.length := by
  obtain ⟨s, e, h, _⟩ :=
    main_termina 32767 ind_exemple params_exemple (rand_de [1, 0, 1]) (by decide) (by decide)
  exact ⟨s, e, h⟩

theorem individu_de_parell (fs : List (List Int × List Int)) (j : Nat) (f : List Int × List Int)
    (h : fs[j]? = some f) :
    individu_de fs (2 * j) = ⟨f.1, calcula_error f.1⟩ ∧
    individu_de fs (2 * j + 1) = ⟨f.2, calcula_error f.2⟩ := by
  have h1 : (2 * j) / 2 = j := by omega
  have h2 : (2 * j) % 2 = 0 := by omega
  have h3 : (2 * j + 1) / 2 = j := by omega
  have h4 : ¬ ((2 * j + 1) % 2 = 0) := by omega
  have hd : fs.getD j ([], []) = f := by
    rw [List.getD_eq_getElem?_getD, h]; rfl
  unfold individu_de
  rw [h1, h2, h3, if_pos rfl, if_neg h4, hd]
  exact ⟨rfl, rfl⟩

/-- C15: with `n` odd, one generation step from a valid population into any
buffer of `n` slots returns; `(n + 1) / 2` pairs of children are bred; the
buffer afterwards has `n` individuals, each with its error computed from its
genome; slots `2 j` and `2 j + 1` hold the two children of pair `j` for every
pair but the last, and slot `n - 1` holds the first child of the last pair, so
that the second child of the last pair is in no slot; the result is the same
whatever the buffer held before. -/
theorem nova_generacio_senar (RAND_MAX : Nat) (ind : Indeterminat) (poblacio : List Cromosoma)
    (n k : Nat) (pmut : ℚ) (nova : List Cromosoma) (g : RandSrc)
    (hv : poblacio_valida n poblacio) (hodd : n % 2 = 1) (hlen : nova.length = n) :
    ∃ fs g2 nova1,
      cries RAND_MAX ind poblacio n k pmut ((n + 1) / 2) g = some (fs, g2) ∧
      fs.length = (n + 1) / 2 ∧
      nova_generacio RAND_MAX ind poblacio n k pmut nova g = some (nova1, g2) ∧
      nova1.length = n ∧
      (∀ c ∈ nova1, c.error = calcula_error c.gens) ∧
      (∀ (j : Nat) (f : List Int × List Int), j + 1 < (n + 1) / 2 → fs[j]? = some f →
        nova1[2 * j]? = some ⟨f.1, calcula_error f.1⟩ ∧
        nova1[2 * j + 1]? = some ⟨f.2, calcula_error f.2⟩) ∧
      (∀ f : List Int × List Int, fs[(n - 1) / 2]? = some f →
        nova1[n - 1]? = some ⟨f.1, calcula_error f.1⟩) ∧
      (∀ nova2 : List Cromosoma, nova2.length = n →
        nova_generacio RAND_MAX ind poblacio n k pmut nova2 g = some (nova1, g2)) := by
  have hn : 1 ≤ n := by omega
  obtain ⟨fs, g2, e, hl, eg, hval, _⟩ :=
    nova_generacio_valida RAND_MAX ind poblacio n k pmut hv hn nova hlen g
  have hget : ∀ i, i < n →
      ((List.range n).map (individu_de fs))[i]? = some (individu_de fs i) := by
    intro i hi
    rw [List.getElem?_map, List.getElem?_range hi, Option.map_some']
  refine ⟨fs, g2, (List.range n).map (individu_de fs), e, hl, eg, hval.1,
    fun c hc => (hval.2 c hc).2, ?_, ?_, ?_⟩
  · intro j f hj hf
    obtain ⟨h1, h2⟩ := individu_de_parell fs j f hf
    rw [hget (2 * j) (by omega), hget (2 * j + 1) (by omega), h1, h2]
    exact ⟨rfl, rfl⟩
  · intro f hf
    obtain ⟨h1, _⟩ := individu_de_parell fs ((n - 1) / 2) f hf
    have e2 : n - 1 = 2 * ((n - 1) / 2) := by omega
    rw [hget (n - 1) (by omega)]
    rw [← e2] at h1
    rw [h1]
  · intro nova2 hlen2
    exact nova_generacio_eq RAND_MAX ind poblacio n k pmut nova2 g g2 fs e hlen2

theorem nova_generacio_senar_witness :
    ∃ fs g2 nova1,
      cries 32767 ind_exemple (inicialitza_poblacio 3 (rand_de [1, 0, 1])).1 3 2 (1 / 20)
        ((3 + 1) / 2) (rand_de [5, 6]) = some (fs, g2) ∧
      fs.length = (3 + 1) / 2 ∧
      nova_generacio 32767 ind_exemple (inicialitza_poblacio 3 (rand_de [1, 0, 1])).1 3 2
        (1 / 20) (List.replicate 3 ⟨[], 7⟩) (rand_de [5, 6]) = some (nova1, g2) ∧
      nova1.length = 3 := by
  obtain ⟨fs, g2, nova1, h1, h2, h3, h4, _⟩ :=
    nova_generacio_senar 32767 ind_exemple (inicialitza_poblacio 3 (rand_de [1, 0, 1])).1 3 2
      (1 / 20) (List.replicate 3 ⟨[], 7⟩) (rand_de [5, 6])
      (inicialitza_poblacio_valida 3 (rand_de [1, 0, 1])) (by decide) (by decide)
  exact ⟨fs, g2, nova1, h1, h2, h3, h4⟩

/-- When no iteration is allowed, or the budget is spent with no population
examined, the final state is the initial one as far as the record goes. -/
theorem final_zero (n : Nat) (pob0 : List Cromosoma) (s : Estat) (hI : Inv n pob0 s)
    (hF : Final 0 s) :
    s.informes = [] ∧ s.avaluades = [] ∧ s.poblacio = pob0 ∧ s.generacio_millor = 1 ∧
      s.millor_solucio ∈ pob0 := by
  have ha : s.avaluades = [] := by
    rcases hF with ⟨h1, _⟩ | ⟨h1, h2, _⟩
    · exact List.length_eq_zero.mp h1
    · omega
  have hi : s.informes = [] := by
    apply List.length_eq_zero.mp
    rw [hI.inf_len, ha]
    rfl
  obtain ⟨a1, a2, a3⟩ := hI.abans ha
  exact ⟨hi, ha, a1, a3, a2⟩

/-- C16 fails on the code: the configuration `generacions = 0`, `n = 2`,
`pmut = 2`, `k = 0` (budget not positive, probability outside `[0, 1]`,
tournament size below 1) is not rejected. `main` returns 0 after it has built
and evaluated a population of 2 individuals; no generation is reported and the
best of the initial population is the result, with generation 1. -/
theorem config_invalida_acceptada :
    llegeix_parametres atoi_exemple atof_exemple ["codi", "0", "2", "2", "0"] = ⟨0, 2, 2, 0⟩ ∧
    ∃ s, main atoi_exemple atof_exemple 32767 ind_exemple ["codi", "0", "2", "2", "0"]
        (rand_de [1, 0, 1]) = some (0, s) ∧
      s.poblacio = (inicialitza_poblacio 2 (rand_de [1, 0, 1])).1 ∧
      s.poblacio.length = 2 ∧ (∀ c ∈ s.poblacio, c.error = calcula_error c.gens) ∧
      s.informes = [] ∧ s.generacio_millor = 1 ∧ s.millor_solucio ∈ s.poblacio := by
  have hp : llegeix_parametres atoi_exemple atof_exemple ["codi", "0", "2", "2", "0"]
      = ⟨0, 2, 2, 0⟩ := by
    simp [llegeix_parametres, atoi_exemple, atof_exemple]
  refine ⟨hp, ?_⟩
  obtain ⟨s0, s, _, _, _, _, e, hI, hF, _, _⟩ :=
    executa_spec 32767 ind_exemple ⟨0, 2, 2, 0⟩ (rand_de [1, 0, 1]) (by decide)
  obtain ⟨f1, _, f3, f4, f5⟩ := final_zero _ _ s hI hF
  refine ⟨s, ?_, f3, hI.pob.1, fun c hc => (hI.pob.2 c hc).2, f1, f4, by rw [f3]; exact f5⟩
  unfold main
  rw [hp, e]

/-- C16 as amended: no configuration is rejected. Whenever `main` returns,
it returns 0; and for every argument list that gives a population size
`n >= 1`, whatever the generation budget, the mutation probability and the
tournament size, `main` returns 0 after it has built and evaluated a
population of `n` individuals. With a generation budget `<= 0` no generation
is reported and the result is the best individual of the initial population,
with generation 1. -/
theorem main_sense_validacio (atoi : String → Int) (atof : String → ℚ) (RAND_MAX : Nat)
    (ind : Indeterminat) (argv : List String) (g : RandSrc)
    (hn : 1 ≤ (llegeix_parametres atoi atof argv).n) :
    (∀ (r : Int) (s : Estat), main atoi atof RAND_MAX ind argv g = some (r, s) → r = 0) ∧
    ∃ s, main atoi atof RAND_MAX ind argv g = some (0, s) ∧
      ((inicialitza_poblacio (llegeix_parametres atoi atof argv).n.toNat g).1.length
          = (llegeix_parametres atoi atof argv).n.toNat ∧
        ∀ c ∈ (inicialitza_poblacio (llegeix_parametres atoi atof argv).n.toNat g).1,
          c.error = calcula_error c.gens) ∧
      s.millor_solucio.error = calcula_error s.millor_solucio.gens ∧
      ((llegeix_parametres atoi atof argv).generacions ≤ 0 →
        s.informes = [] ∧
        s.poblacio = (inicialitza_poblacio (llegeix_parametres atoi atof argv).n.toNat g).1 ∧
        s.generacio_millor = 1 ∧ s.millor_solucio ∈ s.poblacio ∧
        ∀ c ∈ s.poblacio, s.millor_solucio.error ≤ c.error) := by
  constructor
  · intro r s h
    unfold main at h
    cases he : executa RAND_MAX ind (llegeix_parametres atoi atof argv) g with
    | none => rw [he] at h; exact absurd h (by simp)
    | some s1 =>
      rw [he] at h
      simp only [Option.some.injEq, Prod.mk.injEq] at h
      exact h.1.symm
  · obtain ⟨s0, s, _, _, _, _, e, hI, hF, _, _⟩ :=
      executa_spec RAND_MAX ind (llegeix_parametres atoi atof argv) g hn
    have hv := inicialitza_poblacio_valida (llegeix_parametres atoi atof argv).n.toNat g
    refine ⟨s, ?_, ⟨hv.1, fun c hc => (hv.2 c hc).2⟩, hI.millor.2, ?_⟩
    · unfold main
      rw [e]
    · intro hg
      have h0 : (llegeix_parametres atoi atof argv).generacions.toNat = 0 := by omega
      rw [h0] at hF
      obtain ⟨f1, _, f3, f4, f5⟩ := final_zero _ _ s hI hF
      refine ⟨f1, f3, f4, by rw [f3]; exact f5, ?_⟩
      intro c hc
      rw [f3] at hc
      exact hI.minim _ (List.mem_cons_self _ _) c hc

theorem main_sense_validacio_witness :
    ∃ s, main atoi_exemple atof_exemple 32767 ind_exemple ["codi", "0", "2", "2", "0"]
        (rand_de [1, 0, 1]) = some (0, s) ∧ s.informes = [] := by
  obtain ⟨_, s, e, _, _, h⟩ :=
    main_sense_validacio atoi_exemple atof_exemple 32767 ind_exemple
      ["codi", "0", "2", "2", "0"] (rand_de [1, 0, 1])
      (by simp [llegeix_parametres, atoi_exemple])
  exact ⟨s, e, (h (by simp [llegeix_parametres, atoi_exemple])).1⟩

/-- With a population size that is not positive the run reads
`poblacio[0]` outside the (empty) population. -/
theorem executa_n_no_positiva (RAND_MAX : Nat) (ind : Indeterminat) (p : Params) (g : RandSrc)
    (hn : p.n ≤ 0) : executa RAND_MAX ind p g = none := by
  have h0 : p.n.toNat = 0 := by omega
  unfold executa estat_inicial
  rw [h0]
  rfl

theorem executa_n_no_positiva_witness :
    executa 32767 ind_exemple ⟨3, 0, 1 / 20, 2⟩ (rand_de []) = none :=
  executa_n_no_positiva 32767 ind_exemple ⟨3, 0, 1 / 20, 2⟩ (rand_de []) (by decide)

/-- C17: for `n >= 1`, every mutation probability, every generation budget
and every random stream, the run returns and the initial population, every
population examined, the population held at the end and the best-so-far
record consist of genomes of exactly 30 genes, each 0 or 1. -/
theorem gens_binaris (RAND_MAX : Nat) (ind : Indeterminat) (p : Params) (g : RandSrc)
    (hn : 1 ≤ p.n) :
    ∃ s, executa RAND_MAX ind p g = some s ∧
      (∀ c ∈ (inicialitza_poblacio p.n.toNat g).1, c.gens.length = 30 ∧ binari c.gens) ∧
      (∀ P ∈ s.avaluades, ∀ c ∈ P, c.gens.length = 30 ∧ binari c.gens) ∧
      (∀ c ∈ s.poblacio, c.gens.length = 30 ∧ binari c.gens) ∧
      s.millor_solucio.gens.length = 30 ∧ binari s.millor_solucio.gens := by
  obtain ⟨s0, s, _, _, _, _, e, hI, _, _, _⟩ := executa_spec RAND_MAX ind p g hn
  have hv := inicialitza_poblacio_valida p.n.toNat g
  exact ⟨s, e, fun c hc => (hv.2 c hc).1, fun P hP c hc => ((hI.aval P hP).2 c hc).1,
    fun c hc => (hI.pob.2 c hc).1, hI.millor.1⟩

theorem gens_binaris_witness :
    ∃ s, executa 32767 ind_exemple params_exemple (rand_de [1, 0, 1]) = some s ∧
      s.millor_solucio.gens.length = 30 ∧ binari s.millor_solucio.gens := by
  obtain ⟨s, e, _, _, _, h⟩ :=
    gens_binaris 32767 ind_exemple params_exemple (rand_de [1, 0, 1]) (by decide)
  exact ⟨s, e, h⟩

/-! ### Selection with `k = 1`, inherited genes, bounds -/

/-- With `k = 1` and `n >= 1` the tournament is its first draw modulo `n`; the
population is not read. -/
theorem tournament_selection_k1 (poblacio : List Cromosoma) (n : Nat) (g : RandSrc)
    (hn : 1 ≤ n) :
    tournament_selection poblacio n 1 g = some (g 0 % n, fun i => g (i + 1)) := by
  unfold tournament_selection
  rw [if_neg (by omega)]
  rfl

/-- The number of raw values `0 .. RAND_MAX` that give the index `i < n`. -/
theorem recompte_eq (RAND_MAX : Nat) (poblacio : List Cromosoma) (n i : Nat) (hn : 1 ≤ n)
    (hi : i < n) :
    recompte RAND_MAX poblacio n i
      = (RAND_MAX + 1) / n + if i < (RAND_MAX + 1) % n then 1 else 0 := by
  have hiff : ∀ r ∈ Finset.range (RAND_MAX + 1),
      ((tournament_selection poblacio n 1 (fun _ => r)).map Prod.fst = some i) ↔
        r ≡ i [MOD n] := by
    intro r _
    rw [tournament_selection_k1 poblacio n _ hn]
    simp only [Option.map_some', Option.some.injEq]
    unfold Nat.ModEq
    rw [Nat.mod_eq_of_lt hi]
  unfold recompte
  rw [Finset.filter_congr hiff, ← Nat.count_eq_card_filter_range,
    Nat.count_modEq_card (RAND_MAX + 1) (by omega) i, Nat.mod_eq_of_lt hi]

/-- C18 fails on the code: with `RAND_MAX = 32767`, `n = 3` and `k = 1`, the
index 0 is returned for 10923 of the 32768 raw values of the draw and the
index 2 for 10922 of them: the returned index is not uniform. -/
theorem tournament_k1_no_uniforme :
    poblacio_tres.length = 3 ∧
    recompte 32767 poblacio_tres 3 0 = 10923 ∧ recompte 32767 poblacio_tres 3 2 = 10922 ∧
    recompte 32767 poblacio_tres 3 0 ≠ recompte 32767 poblacio_tres 3 2 := by
  have h0 : recompte 32767 poblacio_tres 3 0 = 10923 := by
    rw [recompte_eq 32767 poblacio_tres 3 0 (by decide) (by decide)]
    decide
  have h2 : recompte 32767 poblacio_tres 3 2 = 10922 := by
    rw [recompte_eq 32767 poblacio_tres 3 2 (by decide) (by decide)]
    decide
  refine ⟨rfl, h0, h2, ?_⟩
  rw [h0, h2]
  decide

/-- C18 as amended: with `k = 1`, for every population of size `n >= 1` the
returned index is the single raw draw modulo `n`, whatever the errors in the
population. When the raw draw ranges over `0 .. RAND_MAX`, the index `i` is
returned for `(RAND_MAX + 1) / n` raw values, and for one more when
`i < (RAND_MAX + 1) mod n`: the numbers for two indices differ by at most
one, and they are all equal when `n` divides `RAND_MAX + 1`. -/
theorem tournament_k1_modul (RAND_MAX : Nat) (poblacio : List Cromosoma) (n : Nat)
    (g : RandSrc) (_hlen : poblacio.length = n) (hn : 1 ≤ n) :
    tournament_selection poblacio n 1 g = some (g 0 % n, fun i => g (i + 1)) ∧
    (∀ i < n, recompte RAND_MAX poblacio n i
      = (RAND_MAX + 1) / n + if i < (RAND_MAX + 1) % n then 1 else 0) ∧
    (∀ i < n, ∀ j < n, recompte RAND_MAX poblacio n i ≤ recompte RAND_MAX poblacio n j + 1) ∧
    ((RAND_MAX + 1) % n = 0 →
      ∀ i < n, ∀ j < n, recompte RAND_MAX poblacio n i = recompte RAND_MAX poblacio n j) := by
  refine ⟨tournament_selection_k1 poblacio n g hn,
    fun i hi => recompte_eq RAND_MAX poblacio n i hn hi, ?_, ?_⟩
  · intro i hi j hj
    rw [recompte_eq RAND_MAX poblacio n i hn hi, recompte_eq RAND_MAX poblacio n j hn hj]
    split_ifs <;> omega
  · intro h0 i hi j hj
    rw [recompte_eq RAND_MAX poblacio n i hn hi, recompte_eq RAND_MAX poblacio n j hn hj, h0]
    simp

theorem tournament_k1_modul_witness :
    tournament_selection poblacio_exemple 4 1 (rand_de [6])
      = some (rand_de [6] 0 % 4, fun i => rand_de [6] (i + 1)) :=
  (tournament_k1_modul 32767 poblacio_exemple 4 (rand_de [6]) (by decide) (by decide)).1

/-- C19: with mutation probability 0, for `n >= 1`, every `k`, every budget
and every random stream: when all individuals of an examined population hold
the gene `b` at position `j`, so do all individuals of every population
examined later and of the population held at the end. In one breeding step
from a valid population, every gene of each child is the gene at the same
position of one of its two parents. -/
theorem posicio_fixada (RAND_MAX : Nat) (ind : Indeterminat) (p : Params) (g : RandSrc)
    (hn : 1 ≤ p.n) (h0 : p.pmut = 0) :
    (∃ s, executa RAND_MAX ind p g = some s ∧
      ∀ (j : Nat) (b : Int) (i : Nat) (P : List Cromosoma), s.avaluades[i]? = some P →
        (∀ c ∈ P, c.gens[j]? = some b) →
        (∀ (i1 : Nat) (P1 : List Cromosoma), i ≤ i1 → s.avaluades[i1]? = some P1 →
          ∀ c ∈ P1, c.gens[j]? = some b) ∧
        ∀ c ∈ s.poblacio, c.gens[j]? = some b) ∧
    ∀ (poblacio : List Cromosoma) (g1 : RandSrc), poblacio_valida p.n.toNat poblacio →
      ∃ p1 ∈ poblacio, ∃ p2 ∈ poblacio, ∃ f g2,
        cria RAND_MAX ind poblacio p.n.toNat p.k.toNat p.pmut g1 = some (f, g2) ∧
        ∀ j : Nat, (f.1[j]? = p1.gens[j]? ∨ f.1[j]? = p2.gens[j]?) ∧
          (f.2[j]? = p1.gens[j]? ∨ f.2[j]? = p2.gens[j]?) := by
  constructor
  · obtain ⟨s0, s, _, _, _, _, e, _, _, _, hh⟩ := executa_spec RAND_MAX ind p g hn
    exact ⟨s, e, hh h0⟩
  · intro poblacio g1 hv
    obtain ⟨p1, p2, f, g2, e, hp1, hp2, _, _, horig⟩ :=
      cria_spec RAND_MAX ind poblacio p.n.toNat p.k.toNat p.pmut hv (by omega) g1
    exact ⟨p1, hp1, p2, hp2, f, g2, e, horig h0⟩

theorem posicio_fixada_witness :
    ∃ s, executa 32767 ind_exemple ⟨3, 3, 0, 2⟩ (rand_de [1, 0, 1]) = some s ∧
      ∀ (j : Nat) (b : Int) (i : Nat) (P : List Cromosoma), s.avaluades[i]? = some P →
        (∀ c ∈ P, c.gens[j]? = some b) →
        (∀ (i1 : Nat) (P1 : List Cromosoma), i ≤ i1 → s.avaluades[i1]? = some P1 →
          ∀ c ∈ P1, c.gens[j]? = some b) ∧
        ∀ c ∈ s.poblacio, c.gens[j]? = some b :=
  (posicio_fixada 32767 ind_exemple ⟨3, 3, 0, 2⟩ (rand_de [1, 0, 1]) (by decide) rfl).1

/-- On a population of `n >= 1` individuals the breeding step returns. -/
theorem cria_some (RAND_MAX : Nat) (ind : Indeterminat) (poblacio : List Cromosoma)
    (n k : Nat) (pmut : ℚ) (hlen : poblacio.length = n) (hn : 1 ≤ n) (g : RandSrc) :
    ∃ f g1, cria RAND_MAX ind poblacio n k pmut g = some (f, g1) := by
  obtain ⟨idx1, g1, e1, hi1⟩ := tournament_selection_some poblacio n k g hlen hn
  obtain ⟨idx2, g2, e2, hi2⟩ := tournament_selection_some poblacio n k g1 hlen hn
  have hc := cria_eq RAND_MAX ind poblacio n k pmut g g1 g2 idx1 idx2 _ _ e1 e2
    (List.getElem?_eq_getElem (show idx1 < poblacio.length by omega))
    (List.getElem?_eq_getElem (show idx2 < poblacio.length by omega))
  exact ⟨_, _, hc⟩

theorem cries_some (RAND_MAX : Nat) (ind : Indeterminat) (poblacio : List Cromosoma)
    (n k : Nat) (pmut : ℚ) (hlen : poblacio.length = n) (hn : 1 ≤ n) :
    ∀ (m : Nat) (g : RandSrc),
      ∃ fs g2, cries RAND_MAX ind poblacio n k pmut m g = some (fs, g2) := by
  intro m
  induction m with
  | zero => intro g; exact ⟨[], g, rfl⟩
  | succ m ih =>
    intro g
    obtain ⟨f, g1, e⟩ := cria_some RAND_MAX ind poblacio n k pmut hlen hn g
    obtain ⟨fs, g2, e2⟩ := ih g1
    exact ⟨f :: fs, g2, by simp only [cries, e, e2]⟩

/-- C20: for a population of `n >= 1` individuals, every `k` and every random
stream, `tournament_selection` and `millor_cromosoma` return an index below
`n`, and the generation-building loop returns a buffer of `n` slots: in the
model a read outside the population or a write outside the buffer gives no
result, so every read and every write is at an index below `n`. -/
theorem accessos_dins (RAND_MAX : Nat) (ind : Indeterminat) (poblacio nova : List Cromosoma)
    (n k : Nat) (pmut : ℚ) (g : RandSrc) (hlen : poblacio.length = n)
    (hnova : nova.length = n) (hn : 1 ≤ n) :
    (∃ r g1, tournament_selection poblacio n k g = some (r, g1) ∧ r < n) ∧
    (∃ r, millor_cromosoma poblacio n = some r ∧ r < n) ∧
    (∃ nova1 g2, nova_generacio RAND_MAX ind poblacio n k pmut nova g = some (nova1, g2) ∧
      nova1.length = n) ∧
    (∀ (c : Cromosoma) (i : Nat), n ≤ i → escriu nova i c = none) := by
  refine ⟨tournament_selection_some poblacio n k g hlen hn, ?_, ?_, ?_⟩
  · obtain ⟨idx, _, e, h, _⟩ := millor_cromosoma_min poblacio n hlen hn
    exact ⟨idx, e, h⟩
  · obtain ⟨fs, g2, e⟩ := cries_some RAND_MAX ind poblacio n k pmut hlen hn ((n + 1) / 2) g
    obtain ⟨nova1, r1, r2, _⟩ :=
      nova_generacio_loop_spec RAND_MAX ind poblacio n k pmut ((n + 1) / 2) 0 nova g g2 fs e
        hnova (by omega)
    exact ⟨nova1, g2, r1, r2⟩
  · intro c i hi
    unfold escriu
    rw [if_neg (by omega)]

theorem accessos_dins_witness :
    ∃ r, millor_cromosoma poblacio_exemple 4 = some r ∧ r < 4 :=
  (accessos_dins 32767 ind_exemple poblacio_exemple (List.replicate 4 ⟨[], 7⟩) 4 2 (1 / 20)
    (rand_de [1, 0, 1]) (by decide) (by decide) (by decide)).2.1

end CODI